import Mathlib

/-!
Verification of the mycelium-iot core against its natural-language
specification.

The Python sources are shallowly embedded: Python dicts become association
lists in insertion order (the order Python ≥ 3.7 dicts preserve), Python
exceptions become an explicit `PyErr` error type threaded through `Except`,
and unbounded loops take an explicit fuel argument.  Python values that can
appear inside payloads, transactions and msgpack messages are modelled by the
mutually inductive `PyValue`/`PyValueList`/`PyValueMap` types below.
-/

/-- The Python exception classes that the embedded code can raise. -/
inductive PyErr where
  | keyError
  | typeError
  | valueError
  | runtimeError
  | runtimeWarning
  | attributeError
  | indexError
  | overflowError
deriving DecidableEq, Repr

mutual
/-- A Python value as it can appear in payload dicts, transactions and
msgpack messages: `None`, booleans, ints, floats (carried by their IEEE-754
bit pattern; structural equality on the bits), strings, lists, tuples and
string-keyed dicts.  Dicts are association lists in insertion order. -/
inductive PyValue where
  | null
  | bool (b : Bool)
  | int (i : Int)
  | float (bits : Nat)
  | str (s : String)
  | list (xs : PyValueList)
  | tuple (xs : PyValueList)
  | map (m : PyValueMap)
deriving DecidableEq, Repr

/-- A list of Python values. -/
inductive PyValueList where
  | nil
  | cons (v : PyValue) (rest : PyValueList)
deriving DecidableEq, Repr

/-- A string-keyed Python dict, kept in insertion order. -/
inductive PyValueMap where
  | nil
  | cons (k : String) (v : PyValue) (rest : PyValueMap)
deriving DecidableEq, Repr
end

/-- `m[k]` lookup in a dict (first occurrence; dicts built by the embedded
code never carry a duplicate key). -/
def PyValueMap.lookup : PyValueMap → String → Option PyValue
  | .nil, _ => none
  | .cons k v rest, key => if k == key then some v else rest.lookup key

/-- `k in m` for a dict. -/
def PyValueMap.hasKey (m : PyValueMap) (key : String) : Bool :=
  (m.lookup key).isSome

/-- The dict's keys, in insertion order. -/
def PyValueMap.keys : PyValueMap → List String
  | .nil => []
  | .cons k _ rest => k :: rest.keys

/-- `m[k] = v` assignment: an existing key keeps its position, a new key is
appended — exactly the Python dict behaviour. -/
def PyValueMap.setItem : PyValueMap → String → PyValue → PyValueMap
  | .nil, key, value => .cons key value .nil
  | .cons k v rest, key, value =>
    if k == key then .cons k value rest else .cons k v (rest.setItem key value)

/-- `a.update(b)`: every entry of `b` is assigned into `a` in order. -/
def PyValueMap.updateWith : PyValueMap → PyValueMap → PyValueMap
  | a, .nil => a
  | a, .cons k v rest => (a.setItem k v).updateWith rest

/-- Number of entries of a dict. -/
def PyValueMap.size : PyValueMap → Nat
  | .nil => 0
  | .cons _ _ rest => rest.size + 1

/-! ## `mindstone/core/utils.py` — `get_nested` (claim C10)

```python
def get_nested(route: str, mapping: dict, delimiter: str = "."):
    return _get_nested_util(route.split(delimiter), mapping)

def _get_nested_util(route: list, mapping):
    key = route.pop(0)
    if key not in mapping:
        return None
    mapping = mapping[key]
    return mapping if not len(route) else _get_nested_util(route, mapping)
```

`key not in mapping` is the Python membership test: on a dict it tests the
keys, on a string it is a substring test, on a list or tuple it compares the
key against the elements, and on any other value (int, float, bool, None) it
raises `TypeError`.  `mapping[key]` with a string key raises `TypeError` on a
string, list or tuple. -/

/-- Python `key in xs` over a list's elements: `key == element` is only true
for an equal string element (Python `==` across types is `False`). -/
def pyListContains (key : String) : PyValueList → Bool
  | .nil => false
  | .cons (.str s) rest => s == key || pyListContains key rest
  | .cons _ rest => pyListContains key rest

/-- Contiguous-substring test on character lists (Python `sub in str`). -/
def charsInfixOf : List Char → List Char → Bool
  | needle, [] => needle.isEmpty
  | needle, c :: rest => needle.isPrefixOf (c :: rest) || charsInfixOf needle rest

/-- Python `key in value` membership test for a string key. -/
def pyContains (key : String) : PyValue → Except PyErr Bool
  | .map m => .ok (m.hasKey key)
  | .str s => .ok (charsInfixOf key.toList s.toList)
  | .list xs => .ok (pyListContains key xs)
  | .tuple xs => .ok (pyListContains key xs)
  | _ => .error .typeError

/-- Python `value[key]` subscription with a string key.  Strings, lists and
tuples require integer indices, every other non-dict raises `TypeError`. -/
def pyGetItem (key : String) : PyValue → Except PyErr PyValue
  | .map m =>
    match m.lookup key with
    | some v => .ok v
    | none => .error .keyError
  | _ => .error .typeError

/-- `_get_nested_util(route, mapping)`.  The empty-route case models
`route.pop(0)` raising `IndexError`; it is unreachable from `get_nested`
because `str.split` always yields at least one segment. -/
def get_nested_util : List String → PyValue → Except PyErr PyValue
  | [], _ => .error .indexError
  | key :: rest, mapping => do
    let present ← pyContains key mapping
    if !present then
      pure .null
    else do
      let inner ← pyGetItem key mapping
      if rest.isEmpty then pure inner else get_nested_util rest inner

/-- Python `route.split(".")` over the characters: always yields at least one
segment (`"".split(".") == [""]`). -/
def splitDots : List Char → List Char → List String
  | [], acc => [String.mk acc.reverse]
  | c :: rest, acc =>
    if c == '.' then String.mk acc.reverse :: splitDots rest []
    else splitDots rest (c :: acc)

/-- `get_nested(route, mapping)` with the default `"."` delimiter. -/
def get_nested (route : String) (mapping : PyValue) : Except PyErr PyValue :=
  get_nested_util (splitDots route.toList []) mapping

deriving instance DecidableEq for Except

/-- A route is safe for a value when every value consulted for a segment is
either a dict (the route may end there, find the segment absent, or descend
into the looked-up value) or a non-dict container — str, list, tuple — that
does *not* contain the segment (the membership test then evaluates to
`False` and the lookup returns `None`).  The two excluded situations are
exactly where `get_nested` raises: a segment consulted against a
non-container (int, float, bool, None), and a non-dict container that does
contain the segment key, where the subsequent string subscription raises. -/
def safe_route : List String → PyValue → Bool
  | [], _ => true
  | k :: rest, .map m =>
    if rest.isEmpty then true
    else
      match m.lookup k with
      | none => true
      | some w => safe_route rest w
  | k :: _, .str s => !(charsInfixOf k.toList s.toList)
  | k :: _, .list xs => !(pyListContains k xs)
  | k :: _, .tuple xs => !(pyListContains k xs)
  | _ :: _, _ => false

/-- Some segment of the route is absent from the container it is looked up
in (key of a dict, substring of a str, element of a list or tuple). -/
def route_absent : List String → PyValue → Bool
  | [], _ => false
  | k :: rest, .map m =>
    match m.lookup k with
    | none => true
    | some w => if rest.isEmpty then false else route_absent rest w
  | k :: _, .str s => !(charsInfixOf k.toList s.toList)
  | k :: _, .list xs => !(pyListContains k xs)
  | k :: _, .tuple xs => !(pyListContains k xs)
  | _ :: _, _ => false

/-- C10 (counterexample): `get_nested` is not total.  On the path `"a.b"`
and the mapping `{"a": 5}`, the first segment resolves to the non-mapping
`5` and the membership test `"b" in 5` raises `TypeError` instead of
yielding null. -/
theorem get_nested_counterexample :
    get_nested "a.b" (.map (.cons "a" (.int 5) .nil)) = .error .typeError := by
  rfl

/-- Unfolding of `get_nested_util` on a dict: an absent key yields null, a
present key yields the value or descends. -/
theorem get_nested_util_cons (k : String) (rest : List String) (m : PyValueMap) :
    get_nested_util (k :: rest) (.map m) =
      match m.lookup k with
      | none => .ok .null
      | some w => if rest.isEmpty then .ok w else get_nested_util rest w := by
  cases h : m.lookup k <;>
    simp [get_nested_util, pyContains, PyValueMap.hasKey, h, pyGetItem, bind,
      Except.bind, pure, Except.pure]

/-- On a safe route the lookup never raises and yields null whenever a
segment is absent — also from a str/list/tuple intermediate. -/
theorem get_nested_safe_total (route : List String) (v : PyValue)
    (hr : route ≠ []) (hs : safe_route route v = true) :
    (get_nested_util route v).isOk = true ∧
      (route_absent route v = true → get_nested_util route v = .ok .null) := by
  induction route generalizing v with
  | nil => exact absurd rfl hr
  | cons k rest ih =>
    cases v with
    | map m =>
      rw [get_nested_util_cons]
      cases hw : m.lookup k with
      | none => simp [route_absent, hw, Except.isOk, Except.toBool]
      | some w =>
        cases hrest : rest.isEmpty with
        | true => simp [route_absent, hw, hrest, Except.isOk, Except.toBool]
        | false =>
          have hrne : rest ≠ [] := by
            cases rest with
            | nil => simp [List.isEmpty] at hrest
            | cons a b => exact fun h => List.noConfusion h
          have hsw : safe_route rest w = true := by
            simpa [safe_route, hrest, hw] using hs
          have := ih w hrne hsw
          simpa [route_absent, hw, hrest] using this
    | null => simp [safe_route] at hs
    | bool b => simp [safe_route] at hs
    | int i => simp [safe_route] at hs
    | float f => simp [safe_route] at hs
    | str s =>
      have hcf : charsInfixOf k.toList s.toList = false := by
        simpa [safe_route] using hs
      simp only [String.toList] at hcf
      refine ⟨?_, fun _ => ?_⟩ <;>
        simp [get_nested_util, pyContains, hcf, bind, Except.bind, pure,
          Except.pure, Except.isOk, Except.toBool]
    | list xs =>
      have hcf : pyListContains k xs = false := by
        simpa [safe_route] using hs
      refine ⟨?_, fun _ => ?_⟩ <;>
        simp [get_nested_util, pyContains, hcf, bind, Except.bind, pure,
          Except.pure, Except.isOk, Except.toBool]
    | tuple xs =>
      have hcf : pyListContains k xs = false := by
        simpa [safe_route] using hs
      refine ⟨?_, fun _ => ?_⟩ <;>
        simp [get_nested_util, pyContains, hcf, bind, Except.bind, pure,
          Except.pure, Except.isOk, Except.toBool]

/-- C10 (amended): the lookup used in conditional-edge evaluation yields
null whenever any consulted segment is absent — also when an earlier
segment resolves to a non-mapping container (str, list, tuple) not
containing the segment — and never raises on such routes (`safe_route`).
It is not total beyond them: a segment consulted against a non-container
value raises `TypeError` from the membership test (see the counterexample),
and a str intermediate that *does* contain the segment key raises
`TypeError` at the subsequent string subscription, proved by the second
conjunct. -/
theorem get_nested_totality_boundary :
    (∀ (route : List String) (v : PyValue), route ≠ [] →
      safe_route route v = true →
      (get_nested_util route v).isOk = true ∧
        (route_absent route v = true → get_nested_util route v = .ok .null)) ∧
    (∀ (k : String) (rest : List String) (s : String),
      charsInfixOf k.toList s.toList = true →
      get_nested_util (k :: rest) (.str s) = .error .typeError) :=
  ⟨get_nested_safe_total, fun k rest s hc => by
    have hc2 : charsInfixOf k.data s.data = true := hc
    simp [get_nested_util, pyContains, hc2, pyGetItem, bind, Except.bind]⟩

/-- Witness for the amended C10 theorem: the dict route `["a","b"]` into
`{"a": {}}` is total and yields null; the str intermediate `"xyz"` with the
absent segment `"b"` yields null; the str intermediate `"bob"` containing
the segment `"b"` raises `TypeError` at the subscription. -/
theorem get_nested_totality_boundary_witness :
    ((get_nested_util ["a", "b"] (.map (.cons "a" (.map .nil) .nil))).isOk = true ∧
      (route_absent ["a", "b"] (.map (.cons "a" (.map .nil) .nil)) = true →
        get_nested_util ["a", "b"] (.map (.cons "a" (.map .nil) .nil)) = .ok .null)) ∧
      get_nested_util ["b"] (.str "xyz") = .ok .null ∧
      get_nested_util ["b", "c"] (.str "bob") = .error .typeError :=
  ⟨get_nested_totality_boundary.1 ["a", "b"] (.map (.cons "a" (.map .nil) .nil))
      (by decide) (by rfl),
    (get_nested_totality_boundary.1 ["b"] (.str "xyz") (by decide) (by rfl)).2
      (by rfl),
    get_nested_totality_boundary.2 "b" ["c"] "bob" (by rfl)⟩

/-! ## `mindstone/core/transactions.py` — schema-validated transactions (C5)

```python
_structures = {
    "server": _Structure(received_time={"type": float}, sent_time={"type": float},
                         response={"type": dict}, error={"type": str}),
    "client": _Structure(input={"type": list})
}
```

`Transaction.encoded` checks `is_valid_transaction` (raising `ValueError`)
and then calls `msgpack.dumps`; `decode_transaction` calls `msgpack.loads`,
checks `is_valid_transaction` (raising `RuntimeError`) and rebuilds a
`Transaction`.  The msgpack transport is modelled by the normalisation
`PyValue.pk` below, the value `msgpack.loads` reconstructs from
`msgpack.dumps`' bytes: tuples are packed as arrays and come back as lists,
everything else round-trips structurally; ints outside the 64-bit packing
range make `msgpack.dumps` raise. -/

/-- The declared type of a schema field (`{"type": ...}` in `_structures`). -/
inductive FieldType where
  | floatT
  | dictT
  | strT
  | listT
deriving DecidableEq, Repr

/-- The two transaction shapes. -/
inductive SchemaTag where
  | server
  | client
deriving DecidableEq, Repr

/-- The field declarations of `_structures`, in declaration order. -/
def schemaFields : SchemaTag → List (String × FieldType)
  | .server =>
    [("received_time", .floatT), ("sent_time", .floatT),
     ("response", .dictT), ("error", .strT)]
  | .client => [("input", .listT)]

/-- `isinstance(value, declared_type)`.  A Python tuple is not a `list`, a
bool is not a `float`. -/
def typeMatches : FieldType → PyValue → Bool
  | .floatT, .float _ => true
  | .dictT, .map _ => true
  | .strT, .str _ => true
  | .listT, .list _ => true
  | _, _ => false

/-- `_Structure.is_valid_entry`: the key must be declared and a non-None
value must match the declared type. -/
def is_valid_entry (tag : SchemaTag) (k : String) (v : PyValue) : Bool :=
  match (schemaFields tag).lookup k with
  | none => false
  | some t =>
    match v with
    | .null => true
    | _ => typeMatches t v

/-- Every entry of the dict satisfies the predicate. -/
def mapAllEntries (p : String → PyValue → Bool) : PyValueMap → Bool
  | .nil => true
  | .cons k v rest => p k v && mapAllEntries p rest

/-- Every key of `a` occurs in `b`. -/
def subsetKeys (a b : List String) : Bool :=
  a.all fun k => b.contains k

/-- `_Structure.is_valid_transaction`: the transaction's key set equals the
schema's declared field set (`self.keys() != transaction.keys()` compares as
sets) and every entry is valid. -/
def is_valid_transaction (tag : SchemaTag) (m : PyValueMap) : Bool :=
  let sk := (schemaFields tag).map Prod.fst
  subsetKeys sk m.keys && subsetKeys m.keys sk &&
    mapAllEntries (is_valid_entry tag) m

mutual
/-- The msgpack round trip `loads(dumps(v))`: tuples become lists, the rest
is preserved structurally. -/
def PyValue.pk : PyValue → PyValue
  | .null => .null
  | .bool b => .bool b
  | .int i => .int i
  | .float f => .float f
  | .str s => .str s
  | .list xs => .list xs.pk
  | .tuple xs => .list xs.pk
  | .map m => .map m.pk

/-- msgpack round trip over a list of values. -/
def PyValueList.pk : PyValueList → PyValueList
  | .nil => .nil
  | .cons v rest => .cons v.pk rest.pk

/-- msgpack round trip over a dict's values. -/
def PyValueMap.pk : PyValueMap → PyValueMap
  | .nil => .nil
  | .cons k v rest => .cons k v.pk rest.pk
end

mutual
/-- No tuple occurs anywhere in the value. -/
def PyValue.tupleFree : PyValue → Bool
  | .tuple _ => false
  | .list xs => xs.tupleFree
  | .map m => m.tupleFree
  | _ => true

/-- No tuple occurs in any element. -/
def PyValueList.tupleFree : PyValueList → Bool
  | .nil => true
  | .cons v rest => v.tupleFree && rest.tupleFree

/-- No tuple occurs in any value of the dict. -/
def PyValueMap.tupleFree : PyValueMap → Bool
  | .nil => true
  | .cons _ v rest => v.tupleFree && rest.tupleFree
end

mutual
/-- Every int in the value fits msgpack's packable range
`[-2^63, 2^64 - 1]`; outside it `msgpack.dumps` raises. -/
def PyValue.packable : PyValue → Bool
  | .int i => decide (-(2 ^ 63) ≤ i) && decide (i < 2 ^ 64)
  | .list xs => xs.packable
  | .tuple xs => xs.packable
  | .map m => m.packable
  | _ => true

/-- Packability over a list of values. -/
def PyValueList.packable : PyValueList → Bool
  | .nil => true
  | .cons v rest => v.packable && rest.packable

/-- Packability over a dict's values. -/
def PyValueMap.packable : PyValueMap → Bool
  | .nil => true
  | .cons _ v rest => v.packable && rest.packable
end

/-- `dict.fromkeys(structure)`: all declared fields mapped to `None`, in
declaration order. -/
def fromkeys : List (String × FieldType) → PyValueMap
  | [] => .nil
  | (k, _) :: rest => .cons k .null (fromkeys rest)

/-- `Transaction(structure, **kwargs)`: populate `dict.fromkeys(structure)`
with the provided values; `__setitem__` raises `ValueError` for an entry
that does not adhere to the structure. -/
def Transaction_init (tag : SchemaTag) (kwargs : PyValueMap) :
    Except PyErr PyValueMap :=
  if mapAllEntries (is_valid_entry tag) kwargs then
    .ok ((fromkeys (schemaFields tag)).updateWith kwargs)
  else .error .valueError

/-- `Transaction.encoded()`: refuse an invalid transaction with
`ValueError`, refuse unpackable ints (at `msgpack.dumps`), and otherwise
produce the mapping that `msgpack.loads` will reconstruct from the bytes. -/
def Transaction_encoded (tag : SchemaTag) (m : PyValueMap) :
    Except PyErr PyValue :=
  if !is_valid_transaction tag m then .error .valueError
  else if !(PyValueMap.packable m) then .error .overflowError
  else .ok (.map m.pk)

/-- `decode_transaction(structure, received)` after `msgpack.loads` yielded
`decoded`: a non-dict makes `decoded.keys()` raise `AttributeError`, an
invalid mapping raises `RuntimeError`, and a valid one is rebuilt via
`Transaction(structure, **decoded)`. -/
def decode_transaction (tag : SchemaTag) : PyValue → Except PyErr PyValueMap
  | .map m =>
    if !is_valid_transaction tag m then .error .runtimeError
    else Transaction_init tag m
  | _ => .error .attributeError

mutual
/-- A tuple-free value is untouched by the msgpack round trip. -/
theorem PyValue.pk_eq_self_value : ∀ v : PyValue, v.tupleFree = true → v.pk = v
  | .null, _ => rfl
  | .bool _, _ => rfl
  | .int _, _ => rfl
  | .float _, _ => rfl
  | .str _, _ => rfl
  | .list xs, h => by
    simp [PyValue.tupleFree] at h
    simp [PyValue.pk, PyValueList.pk_eq_self_vlist xs h]
  | .map m, h => by
    simp [PyValue.tupleFree] at h
    simp [PyValue.pk, PyValueMap.pk_eq_self_vmap m h]

/-- A tuple-free value list is untouched by the msgpack round trip. -/
theorem PyValueList.pk_eq_self_vlist : ∀ xs : PyValueList, xs.tupleFree = true → xs.pk = xs
  | .nil, _ => rfl
  | .cons v rest, h => by
    simp [PyValueList.tupleFree] at h
    simp [PyValueList.pk, PyValue.pk_eq_self_value v h.1, PyValueList.pk_eq_self_vlist rest h.2]

/-- A tuple-free dict is untouched by the msgpack round trip. -/
theorem PyValueMap.pk_eq_self_vmap : ∀ m : PyValueMap, m.tupleFree = true → m.pk = m
  | .nil, _ => rfl
  | .cons k v rest, h => by
    simp [PyValueMap.tupleFree] at h
    simp [PyValueMap.pk, PyValue.pk_eq_self_value v h.1, PyValueMap.pk_eq_self_vmap rest h.2]
end

/-- The msgpack round trip preserves a dict's keys. -/
theorem PyValueMap.pk_keys : ∀ m : PyValueMap, m.pk.keys = m.keys
  | .nil => rfl
  | .cons k v rest => by simp [PyValueMap.pk, PyValueMap.keys, PyValueMap.pk_keys rest]

/-- The msgpack round trip preserves entry validity: a valid entry's value
keeps its top-level type class (tuples are never valid entries). -/
theorem is_valid_entry_pk (tag : SchemaTag) (k : String) (v : PyValue)
    (h : is_valid_entry tag k v = true) : is_valid_entry tag k v.pk = true := by
  unfold is_valid_entry at h ⊢
  cases hf : (schemaFields tag).lookup k with
  | none => simp [hf] at h
  | some t =>
    simp only [hf] at h ⊢
    cases v <;> cases t <;> simp_all [typeMatches, PyValue.pk]

/-- The msgpack round trip preserves validity of all entries. -/
theorem mapAllEntries_valid_pk (tag : SchemaTag) :
    ∀ m : PyValueMap, mapAllEntries (is_valid_entry tag) m = true →
      mapAllEntries (is_valid_entry tag) m.pk = true
  | .nil, _ => rfl
  | .cons k v rest, h => by
    simp [mapAllEntries] at h
    simp [PyValueMap.pk, mapAllEntries, is_valid_entry_pk tag k v h.1,
      mapAllEntries_valid_pk tag rest h.2]

/-- The msgpack round trip preserves transaction validity. -/
theorem is_valid_transaction_pk (tag : SchemaTag) (m : PyValueMap)
    (h : is_valid_transaction tag m = true) :
    is_valid_transaction tag m.pk = true := by
  unfold is_valid_transaction at h ⊢
  simp only [Bool.and_eq_true] at h
  simp [PyValueMap.pk_keys, h.1.1, h.1.2, mapAllEntries_valid_pk tag m h.2]

/-- A looked-up entry that fails the predicate falsifies `mapAllEntries`. -/
theorem mapAllEntries_false_of_lookup (p : String → PyValue → Bool) :
    ∀ (m : PyValueMap) (k : String) (v : PyValue),
      m.lookup k = some v → p k v = false → mapAllEntries p m = false
  | .nil, _, _, hl, _ => by simp [PyValueMap.lookup] at hl
  | .cons k' v' rest, k, v, hl, hv => by
    by_cases hk : k' == k
    · simp [PyValueMap.lookup, hk] at hl
      subst hl
      have : k' = k := by simpa using hk
      subst this
      simp [mapAllEntries, hv]
    · simp [PyValueMap.lookup, hk] at hl
      simp [mapAllEntries, mapAllEntries_false_of_lookup p rest k v hl hv]

/-- A client transaction whose `input` list holds a `(method, kwargs)` tuple:
this is exactly what `DriverInterface.send` builds from its request queue. -/
def c5_tx : PyValueMap :=
  .cons "input"
    (.list (.cons (.tuple (.cons (.str "get") (.cons (.map .nil) .nil))) .nil)) .nil

/-- The same transaction after the msgpack round trip: the tuple has become
a list. -/
def c5_tx_listed : PyValueMap :=
  .cons "input"
    (.list (.cons (.list (.cons (.str "get") (.cons (.map .nil) .nil))) .nil)) .nil

/-- C5 (counterexample): `decode(encode(v)) == v` fails for a conforming
client transaction whose `input` list holds a tuple — msgpack packs the
tuple as an array and `loads` returns a list, so the round trip yields a
different value.  (`DriverInterface` queues requests as tuples, so this is
the production shape.) -/
theorem transaction_roundtrip_counterexample :
    (Transaction_encoded .client c5_tx).bind (decode_transaction .client) =
        .ok c5_tx_listed ∧
      (c5_tx_listed == c5_tx) = false := by
  exact ⟨rfl, rfl⟩

/-- C5 (amended): the schema round trip holds for every transaction whose
values are tuple-free (tuples come back as lists), whose ints are packable,
and that is in the field order `Transaction.__init__` produces; `decode`
raises a validation error whenever the key set differs from the schema's
declared fields or a non-null value mismatches its declared type; `encode`
refuses every non-conforming transaction. -/
theorem transaction_schema_properties (tag : SchemaTag) (m : PyValueMap) :
    (is_valid_transaction tag m = true → PyValueMap.tupleFree m = true →
      PyValueMap.packable m = true →
      (fromkeys (schemaFields tag)).updateWith m = m →
      (Transaction_encoded tag m).bind (decode_transaction tag) = .ok m) ∧
    (is_valid_transaction tag m = false →
      decode_transaction tag (.map m) = .error .runtimeError) ∧
    (subsetKeys ((schemaFields tag).map Prod.fst) m.keys = false ∨
        subsetKeys m.keys ((schemaFields tag).map Prod.fst) = false →
      is_valid_transaction tag m = false) ∧
    (∀ (k : String) (v : PyValue) (t : FieldType),
      m.lookup k = some v → (schemaFields tag).lookup k = some t →
      v ≠ .null → typeMatches t v = false → is_valid_transaction tag m = false) ∧
    (is_valid_transaction tag m = false →
      Transaction_encoded tag m = .error .valueError) := by
  refine ⟨?_, ?_, ?_, ?_, ?_⟩
  · intro hvalid htf hpack hcanon
    have hpk : m.pk = m := PyValueMap.pk_eq_self_vmap m htf
    have hvalidpk := is_valid_transaction_pk tag m hvalid
    simp [Transaction_encoded, hvalid, hpack, Except.bind, decode_transaction,
      hvalidpk, Transaction_init, hpk]
    have hentries : mapAllEntries (is_valid_entry tag) m = true := by
      unfold is_valid_transaction at hvalid
      simp only [Bool.and_eq_true] at hvalid
      exact hvalid.2
    simp [hentries, hcanon]
  · intro hinvalid
    simp [decode_transaction, hinvalid]
  · intro hks
    unfold is_valid_transaction
    rcases hks with h | h <;> simp [h]
  · intro k v t hl hf hnn hty
    have hinv : is_valid_entry tag k v = false := by
      unfold is_valid_entry
      cases v <;> simp_all [typeMatches]
    unfold is_valid_transaction
    simp [mapAllEntries_false_of_lookup (is_valid_entry tag) m k v hl hinv]
  · intro hinvalid
    simp [Transaction_encoded, hinvalid]

/-- Witness for the amended C5 theorem: a tuple-free server transaction
round-trips; the empty mapping is rejected by `decode` and refused by
`encode` for the client schema. -/
theorem transaction_schema_properties_witness :
    ((Transaction_encoded .server
        (.cons "received_time" (.float 0) (.cons "sent_time" .null
          (.cons "response" (.map .nil) (.cons "error" .null .nil))))).bind
      (decode_transaction .server) =
      .ok (.cons "received_time" (.float 0) (.cons "sent_time" .null
        (.cons "response" (.map .nil) (.cons "error" .null .nil))))) ∧
      decode_transaction .client (.map .nil) = .error .runtimeError ∧
      Transaction_encoded .client .nil = .error .valueError :=
  ⟨(transaction_schema_properties .server
      (.cons "received_time" (.float 0) (.cons "sent_time" .null
        (.cons "response" (.map .nil) (.cons "error" .null .nil))))).1
      (by rfl) (by rfl) (by rfl) (by rfl),
    (transaction_schema_properties .client .nil).2.1 (by rfl),
    (transaction_schema_properties .client .nil).2.2.2.2 (by rfl)⟩

/-! ## `mindstone/control/interface.py` — `DriverInterface.send` (C3)

```python
def send(self) -> dict:
    encoded = Transaction("client", input=self.requests).encoded()
    # if a decoding error occurs during communication, assume that it is
    # because the driver server has ended
    try:
        received = Transaction.decode("server", self.client.send(encoded))
    except ValueError:
        received = Transaction("server", error="ValueError: Unable to send package. Try again")
    # the requests are cleared to prevent the stacking of reactivated gates
    self.requests = []
    return received
```

The bytes the bound client returns are modelled by what `msgpack.loads`
makes of them: either a msgpack-level failure (msgpack raises `ValueError`
subclasses) or a loaded `PyValue`. -/

/-- Outcome of `msgpack.loads` on the bytes a client's `send` returned. -/
inductive WireBytes where
  | malformed
  | loaded (v : PyValue)
deriving DecidableEq, Repr

/-- `Transaction.decode("server", received_bytes)`: a msgpack failure is a
`ValueError`; otherwise `decode_transaction` validates the loaded value. -/
def decode_wire (tag : SchemaTag) : WireBytes → Except PyErr PyValueMap
  | .malformed => .error .valueError
  | .loaded v => decode_transaction tag v

/-- The synthetic local error response `Transaction("server", error=...)`. -/
def server_error_transaction (msg : String) : PyValueMap :=
  (fromkeys (schemaFields .server)).updateWith (.cons "error" (.str msg) .nil)

/-- `DriverInterface.send` given the request queue and the decoded shape of
the bytes the client returned.  The result pairs what `send` returns (or
raises) with the request queue after the call; only `ValueError` is caught,
so a `RuntimeError` from `decode_transaction` (or an `AttributeError` from a
non-dict payload) propagates before `self.requests = []` runs. -/
def interface_send (requests : PyValueList) (wire : WireBytes) :
    Except PyErr PyValueMap × PyValueList :=
  match decode_wire .server wire with
  | .ok received => (.ok received, .nil)
  | .error .valueError =>
    (.ok (server_error_transaction "ValueError: Unable to send package. Try again"), .nil)
  | .error e => (.error e, requests)

/-- C3 (code evaluated at the failing input): when the client's bytes decode
as valid msgpack but fail server-schema validation (here: the encoding of
the empty mapping), `decode_transaction` raises `RuntimeError`, which the
`except ValueError` clause does not catch — `send` propagates the exception
instead of synthesizing the local error response, and the request queue is
not cleared.  The second conjunct shows the msgpack-level failure that is
caught as the spec describes. -/
theorem interface_send_uncaught_validation_failure :
    interface_send (.cons (.tuple (.cons (.str "get") (.cons (.map .nil) .nil))) .nil)
        (.loaded (.map .nil)) =
      (.error .runtimeError,
        .cons (.tuple (.cons (.str "get") (.cons (.map .nil) .nil))) .nil) ∧
      interface_send (.cons (.tuple (.cons (.str "get") (.cons (.map .nil) .nil))) .nil)
          .malformed =
        (.ok (server_error_transaction "ValueError: Unable to send package. Try again"),
          .nil) := by
  exact ⟨rfl, rfl⟩

/-! ## `mindstone/embedded/driver.py` — dispatch and `_on_receive` (C4)

```python
_request_handlers = {"get": ..., "exe": ..., "delete": ..., "create": ...}
_exe_handlers = {"component": _driver.execute_component}
_delete_handlers = {"component": ..., "routine": ...}
_create_handlers = {"routine": ..., "component": ...}
```

`_on_receive` wraps `_handle_received_data` in
`except (RuntimeError, RuntimeWarning, ValueError)`; an unknown method or
entity indexes one of the tables above and raises `KeyError`, which that
clause does not catch. -/

/-- A component as the driver sees it: whether it is an
`ExecutableComponentABC`, which operations `getattr` can invoke on it, and
whether `read()` is available with its current reading. -/
structure PyComponent where
  executable : Bool
  operations : List String
  readable : Bool
  reading : PyValueMap
deriving DecidableEq, Repr

/-- A registered routine `(entity, executor, operation, kwargs, interval)`. -/
structure RoutineDef where
  entity : String
  executor : String
  operation : String
  kwargs : PyValueMap
  interval : PyValue
deriving DecidableEq, Repr

/-- The driver's mutable state: `components` and `routines`. -/
structure DriverState where
  components : List (String × PyComponent)
  routines : List (String × RoutineDef)
deriving DecidableEq, Repr

/-- The component classes `supported_components` can instantiate, by their
public operation surface (`led`/`motor` alias `trigger`). -/
def supported_components : List (String × PyComponent) :=
  [("led", ⟨true, ["toggle", "turn_on", "turn_off", "read"], true, .nil⟩),
   ("motor", ⟨true, ["toggle", "turn_on", "turn_off", "read"], true, .nil⟩),
   ("servo", ⟨true, ["change_angle", "start", "stop", "read"], true, .nil⟩),
   ("switch", ⟨false, ["read"], true, .nil⟩),
   ("trigger", ⟨true, ["toggle", "turn_on", "turn_off", "read"], true, .nil⟩),
   ("ultrasonic", ⟨false, ["read", "measure_time_change"], true, .nil⟩)]

/-- Assignment into an association list, with Python dict semantics. -/
def alistSet {α β : Type} [BEq α] : List (α × β) → α → β → List (α × β)
  | [], key, value => [(key, value)]
  | (k, v) :: rest, key, value =>
    if k == key then (k, value) :: rest else (k, v) :: alistSet rest key value

/-- Removal from an association list (`del d[k]` / guarded deletes). -/
def alistRemove {α β : Type} [BEq α] : List (α × β) → α → List (α × β)
  | [], _ => []
  | (k, v) :: rest, key =>
    if k == key then rest else (k, v) :: alistRemove rest key

/-- `d.pop(k)`: the removed value and the remaining dict, or `none` when the
key is absent (where Python raises `KeyError`). -/
def alistPop {α β : Type} [BEq α] : List (α × β) → α → Option (β × List (α × β))
  | [], _ => none
  | (k, v) :: rest, key =>
    if k == key then some (v, rest)
    else
      match alistPop rest key with
      | some (w, rest2) => some (w, (k, v) :: rest2)
      | none => none

/-- `a.update(b)` over association-list dicts. -/
def alistUpdate {α β : Type} [BEq α] (a : List (α × β)) (b : List (α × β)) :
    List (α × β) :=
  b.foldl (fun acc kv => alistSet acc kv.1 kv.2) a

/-- A decoded `(method, kwargs)` request entry, at the call shapes the
dispatch tables are invoked with.  `other` stands for any method name
outside the four table keys. -/
inductive ReqEntry where
  | getFields (fields : List String)
  | exe (entity : String) (name : String) (operation : String) (kwargs : PyValueMap)
  | deleteEntity (entity : String) (name : String)
  | createRoutine (entity : String) (r : RoutineDef) (name : String)
  | createComponent (entity : String) (name : String) (ctype : String) (setup : PyValueMap)
  | other (method : String)
deriving DecidableEq, Repr

/-- `_Driver.execute_component`: unknown name, non-executable component and
unknown operation all raise `RuntimeError` (the last via
`ExecutableComponentABC.execute` converting `AttributeError`/`TypeError`). -/
def execute_component (d : DriverState) (name operation : String) :
    Except PyErr Unit :=
  match d.components.lookup name with
  | none => .error .runtimeError
  | some c =>
    if !c.executable then .error .runtimeError
    else if !(c.operations.contains operation) then .error .runtimeError
    else .ok ()

/-- `_Driver.create_routine`: a routine whose entity is in `_exe_handlers`
(`"component"`) requires the executor to be registered. -/
def create_routine (d : DriverState) (name : String) (r : RoutineDef) :
    Except PyErr DriverState :=
  if r.entity == "component" && !(d.components.lookup r.executor).isSome then
    .error .runtimeError
  else .ok { d with routines := alistSet d.routines name r }

/-- `_Driver.create_component`: `supported_components[type]` raises
`KeyError` on an unknown component type; otherwise the new component
replaces any existing one of the same name. -/
def create_component (d : DriverState) (name ctype : String) :
    Except PyErr DriverState :=
  match supported_components.lookup ctype with
  | none => .error .keyError
  | some c => .ok { d with components := alistSet d.components name c }

/-- A list of names as a Python list value. -/
def namesToValues : List String → PyValueList
  | [] => .nil
  | n :: rest => .cons (.str n) (namesToValues rest)

/-- `_Driver.get_states`: the readings of every readable component. -/
def readStates : List (String × PyComponent) → PyValueMap
  | [] => .nil
  | (n, c) :: rest =>
    if c.readable then .cons n (.map c.reading) (readStates rest)
    else readStates rest

/-- `_Driver.get` for one field: `self._get_handlers[field]` raises
`KeyError` for a field outside `states`/`components`/`routines`. -/
def get_one_field (d : DriverState) (field : String) : Except PyErr PyValue :=
  if field == "states" then
    .ok (.map (readStates d.components))
  else if field == "components" then
    .ok (.list (namesToValues (d.components.map Prod.fst)))
  else if field == "routines" then
    .ok (.list (namesToValues (d.routines.map Prod.fst)))
  else .error .keyError

/-- `_Driver.get(fields)`: a dict comprehension over the requested fields. -/
def get_fields (d : DriverState) : List String → Except PyErr PyValueMap
  | [] => .ok .nil
  | field :: rest => do
    let v ← get_one_field d field
    let m ← get_fields d rest
    pure (.cons field v m)

/-- One step of `_handle_received_data`'s loop:
`_request_handlers[method](**kwargs)`.  The result is the new driver state
and, for `get`, a response fragment.  Unknown methods and entities index the
dispatch tables and raise `KeyError`. -/
def request_dispatch (d : DriverState) :
    ReqEntry → Except PyErr (DriverState × Option PyValueMap)
  | .getFields fields => do
    let r ← get_fields d fields
    pure (d, some r)
  | .exe entity name operation _ =>
    if entity != "component" then .error .keyError
    else do
      let _ ← execute_component d name operation
      pure (d, none)
  | .deleteEntity entity name =>
    if entity == "component" then
      .ok ({ d with components := alistRemove d.components name }, none)
    else if entity == "routine" then
      .ok ({ d with routines := alistRemove d.routines name }, none)
    else .error .keyError
  | .createRoutine entity r name =>
    if entity != "routine" then .error .keyError
    else do
      let d2 ← create_routine d name r
      pure (d2, none)
  | .createComponent entity name ctype _ =>
    if entity != "component" then .error .keyError
    else do
      let d2 ← create_component d name ctype
      pure (d2, none)
  | .other _ => .error .keyError

/-- `_handle_received_data`: the decoded request list applied in order,
accumulating `get` results into `response`; the driver state reached so far
is kept even when an entry raises. -/
def handle_received_data (d : DriverState) :
    List ReqEntry → PyValueMap → DriverState × Except PyErr PyValueMap
  | [], response => (d, .ok response)
  | entry :: rest, response =>
    match request_dispatch d entry with
    | .error e => (d, .error e)
    | .ok (d2, result) =>
      let response2 :=
        match result with
        | some r => response.updateWith r
        | none => response
      handle_received_data d2 rest response2

/-- The exception classes `_on_receive` catches:
`except (RuntimeError, RuntimeWarning, ValueError)`. -/
def caught_at_driver_boundary : PyErr → Bool
  | .runtimeError => true
  | .runtimeWarning => true
  | .valueError => true
  | _ => false

/-- The server transaction `_on_receive` builds (`received_time`/`sent_time`
are wall-clock floats, outside this pure model and left null — null is
schema-valid for both fields). -/
def driver_response (response : Option PyValueMap) (error : Option String) :
    PyValueMap :=
  .cons "received_time" .null (.cons "sent_time" .null
    (.cons "response" (match response with | some r => .map r | none => .null)
      (.cons "error" (match error with | some e => .str e | none => .null) .nil)))

/-- The `"{}: {}".format(e.__class__.__name__, str(e))` error text, by
exception class. -/
def pyErrClassName : PyErr → String
  | .keyError => "KeyError"
  | .typeError => "TypeError"
  | .valueError => "ValueError"
  | .runtimeError => "RuntimeError"
  | .runtimeWarning => "RuntimeWarning"
  | .attributeError => "AttributeError"
  | .indexError => "IndexError"
  | .overflowError => "OverflowError"

/-- `_on_receive` on an already-decoded request list: failures raised during
dispatch are reported via the response's `error` field only when their class
is `RuntimeError`, `RuntimeWarning` or `ValueError`; anything else (notably
`KeyError` from an unknown method or entity) propagates out of
`_on_receive`, and no server transaction is produced for that request. -/
def driver_on_receive (d : DriverState) (entries : List ReqEntry) :
    DriverState × Except PyErr PyValueMap :=
  match handle_received_data d entries .nil with
  | (d2, .ok response) => (d2, .ok (driver_response (some response) none))
  | (d2, .error e) =>
    if caught_at_driver_boundary e then
      (d2, .ok (driver_response none (some (pyErrClassName e))))
    else (d2, .error e)

/-- A driver state with one registered trigger component named `"t1"`. -/
def driverWithTrigger : DriverState :=
  ⟨[("t1", ⟨true, ["toggle", "turn_on", "turn_off", "read"], true, .nil⟩)], []⟩

/-- C4 (code evaluated at the failing input): an entry with the unknown
method `"frobnicate"` raises `KeyError` from `_request_handlers[method]`,
which `except (RuntimeError, RuntimeWarning, ValueError)` does not catch —
the driver produces no schema-valid error response for that request (the
exception escapes `_on_receive`).  An unknown entity behaves the same.  By
contrast, an unknown *operation* raises `RuntimeError` and is caught and
reported via `response.error` as the spec claims. -/
theorem driver_dispatch_uncaught_keyerror :
    driver_on_receive driverWithTrigger [.other "frobnicate"] =
        (driverWithTrigger, .error .keyError) ∧
      driver_on_receive driverWithTrigger [.exe "widget" "t1" "toggle" .nil] =
        (driverWithTrigger, .error .keyError) ∧
      driver_on_receive driverWithTrigger [.exe "component" "t1" "frobnicate" .nil] =
        (driverWithTrigger, .ok (driver_response none (some "RuntimeError"))) := by
  exact ⟨rfl, rfl, rfl⟩

/-! ## `mindstone/control/gatenetwork.py` — gates and the gate network
(C1, C2, C6, C8, C9)

`Gate` subclasses `Node` (a `set` of successor keys), so the gate object
itself *is* the successor set the resolution algorithm iterates; it also
carries the optional handler and the optionally bound client.  The RPC
branch of `Gate.activate` (`self.client is not None`, one synchronous round
trip merged into the result) performs network IO and is outside this pure
model: resolution theorems below concern client-free gates, for which
`activate` is exactly the handler application. -/

/-- A client definition `(connection type, hostname, port)`; the only
registered `client_types` key is `"tcp"`. -/
structure ClientInfo where
  ctype : String
  hostname : String
  port : Int
deriving DecidableEq, Repr

/-- A gate: successor-key set (the `Node`/`set` superclass, in insertion
order), optional handler, optional bound client. -/
structure Gate where
  succ : List String := []
  handler : Option (PyValueMap → PyValueMap) := none
  client : Option ClientInfo := none

/-- `Gate.activate`: apply the handler (default: identity) to the inserted
payload (`None` coerces to the empty dict).  Client-free gates only — see
the section comment. -/
def Gate.activate (g : Gate) (inserted : Option PyValueMap) : PyValueMap :=
  let ins := inserted.getD .nil
  match g.handler with
  | none => ins
  | some h => h ins

/-- The condition stored in `_conditional_edges`:
`(key, evaluator, value)`.  Evaluators are total boolean predicates (the
table entries `eq`/`ne` are; Python's `==` coerces numerically across
`int`/`float`/`bool`, which the structural `py_eq` below does not model —
no claim compares across types). -/
def EdgeCond : Type := String × (PyValue → PyValue → Bool) × PyValue

/-- `_standard_evaluators["eq"]`. -/
def py_eq : PyValue → PyValue → Bool := fun a b => a == b

/-- `_standard_evaluators["ne"]`. -/
def py_ne : PyValue → PyValue → Bool := fun a b => !(a == b)

/-- The gate network: the `DirectedGraph` dict of gates plus the
conditional-edge table, the client table, the shared context, the busy flag
and the generation counter. -/
structure GateNetwork where
  nodes : List (String × Gate)
  conditional_edges : List ((String × String) × EdgeCond) := []
  clients : List (String × ClientInfo) := []
  context : PyValueMap := .nil
  is_busy : Bool := false
  generation_count : Nat := 0

/-- `self._conditional_edges.get(edge)`. -/
def GateNetwork.condLookup (net : GateNetwork) (e : String × String) :
    Option EdgeCond :=
  net.conditional_edges.lookup e

/-- `DirectedGraph.in_neighbors(key)`: every node whose successor set holds
`key`. -/
def GateNetwork.in_neighbors (net : GateNetwork) (key : String) : List String :=
  (net.nodes.filter fun kg => kg.2.succ.contains key).map Prod.fst

/-- `DirectedGraph.add_edge` (as inherited by the network): a self-loop
raises `ValueError`, a missing source gate raises `KeyError`, and the
target key is added to the source gate's successor set. -/
def graph_add_edge (net : GateNetwork) (from_key to_key : String) :
    Except PyErr GateNetwork :=
  if from_key == to_key then .error .valueError
  else
    match net.nodes.lookup from_key with
    | none => .error .keyError
    | some g =>
      .ok { net with
        nodes := alistSet net.nodes from_key
          { g with succ := if g.succ.contains to_key then g.succ
                           else g.succ ++ [to_key] } }

/-- `GateNetwork.add_edge(from, to, key, value, evaluator, fallback)`.
When `key` is truthy and `value is not None`, the condition is recorded for
`(from, to)` and — when a truthy `fallback` is given — the complement
condition is recorded for `(from, fallback)` together with its graph edge
(the body of the nested `add_edge` call, whose own fallback is `None`);
finally the `(from, to)` graph edge is added. -/
def network_add_edge (net : GateNetwork) (from_gate to_gate : String)
    (key : Option String) (value : Option PyValue)
    (evaluator : PyValue → PyValue → Bool) (fallback : Option String) :
    Except PyErr GateNetwork :=
  match key, value with
  | some k, some v =>
    if k == "" then graph_add_edge net from_gate to_gate
    else
      let ce2 := alistSet net.conditional_edges (from_gate, to_gate) (k, evaluator, v)
      let net2 := { net with conditional_edges := ce2 }
      match fallback with
      | some fb =>
        if fb == "" then graph_add_edge net2 from_gate to_gate
        else
          let ce3 := alistSet ce2 (from_gate, fb) (k, fun a b => !(evaluator a b), v)
          let net3 := { net2 with conditional_edges := ce3 }
          match graph_add_edge net3 from_gate fb with
          | .error e => .error e
          | .ok net4 => graph_add_edge net4 from_gate to_gate
      | none => graph_add_edge net2 from_gate to_gate
  | _, _ => graph_add_edge net from_gate to_gate

/-- `update_item(mapping, key, value)` from `core/utils.py`, at the
dict-valued instantiations the resolution algorithm uses: an existing item
is `.update`d, a missing one is assigned. -/
def update_item_payload (m : List (String × PyValueMap)) (k : String)
    (v : PyValueMap) : List (String × PyValueMap) :=
  match m.lookup k with
  | some old => alistSet m k (old.updateWith v)
  | none => alistSet m k v

/-- `update_item` at the carry-over table's type
(`child → parent → payload`). -/
def update_item_carry (m : List (String × List (String × PyValueMap)))
    (k : String) (v : List (String × PyValueMap)) :
    List (String × List (String × PyValueMap)) :=
  match m.lookup k with
  | some old => alistSet m k (alistUpdate old v)
  | none => alistSet m k v

/-- The three dicts `_get_next_generation` threads: `next_gates` (children
scheduled this round with their input payloads), `carry_overs` and
`completed`. -/
structure StepState where
  next_gates : List (String × PyValueMap) := []
  carry_overs : List (String × List (String × PyValueMap)) := []
  completed : List (String × PyValueMap) := []

/-! The body of `GateNetwork._get_next_generation`:

```python
for gate_key, activation_result in current.items():
    activation_result = {} if activation_result is None else activation_result
    if not len(self[gate_key]):
        completed[gate_key] = activation_result
        continue
    for child in self[gate_key]:
        edge = (gate_key, child)
        next_gate_key = child
        is_conditional = edge in self._conditional_edges
        if is_conditional:
            key, evaluator, value = self._conditional_edges[edge]
            if evaluator(value, get_nested(key, activation_result)):
                next_gate_key = child
            else:
                continue
        parents = {
            parent for parent in self.in_neighbors(next_gate_key)
            if not (is_conditional or (parent, child) in self._conditional_edges
                    or parent != gate_key)
        }
        carry_over_parents = set()
        next_gate_payload = activation_result
        if next_gate_key in carry_overs:
            for parent_key, parent_activation_result in carry_overs.pop(next_gate_key).items():
                carry_over_parents.add(parent_key)
                next_gate_payload.update(parent_activation_result)
        if parents.issubset(carry_over_parents.union(current)):
            update_item(next_gates, next_gate_key, next_gate_payload)
        else:
            update_item(carry_overs, next_gate_key, {gate_key: activation_result})
for next_gate_key, activation_input in next_gates.items():
    next_generation[next_gate_key] = self[next_gate_key](activation_input)
```

`next_gate_payload` aliases `activation_result`, so a carry-over merge for
one child is visible to the gate's later children: the merge result is
threaded through the inner loop below.  (Python additionally lets a payload
stored in `next_gates` alias a current gate's dict so that a later
`update_item` merge mutates both; no run below stores the same payload
object twice, where value and reference semantics agree.) -/

/-- The conditional evaluation for edge `(gate_key, child)`:
`evaluator(value, get_nested(key, activation_result))` on a conditional
edge (with `get_nested`'s possible exception), `True` on an unconditional
edge. -/
def cond_proceed (net : GateNetwork) (gate_key child : String)
    (activation_result : PyValueMap) : Except PyErr Bool :=
  match net.condLookup (gate_key, child) with
  | some (key, evaluator, value) =>
    match get_nested key (.map activation_result) with
    | .ok looked => .ok (evaluator value looked)
    | .error e => .error e
  | none => .ok true

/-- The required-parent set for `child` along this edge:

```python
parents = {
    parent for parent in self.in_neighbors(next_gate_key)
    if not (is_conditional or (parent, child) in self._conditional_edges
            or parent != gate_key)
}
```

Note the final `parent != gate_key` clause: every parent it keeps *is*
`gate_key`, so the barrier never extends beyond the gate being processed
(the in-code comment says this is done on purpose, to let gates call each
other back). -/
def required_parents (net : GateNetwork) (gate_key child : String)
    (is_conditional : Bool) : List String :=
  (net.in_neighbors child).filter fun parent =>
    !(is_conditional || (net.condLookup (parent, child)).isSome ||
      parent != gate_key)

/-- The scheduling decision once the carry-over merge is done: schedule
`child` into `next_gates` when the required parents are covered by the
carried-over contributors and the current generation, otherwise park the
(unmerged) activation result under `carry_overs[child][gate_key]`. -/
def schedule_or_park (currentKeys : List String) (gate_key child : String)
    (parents carry_over_parents : List String) (payload ar : PyValueMap)
    (carry2 : List (String × List (String × PyValueMap))) (st : StepState) :
    PyValueMap × StepState :=
  if parents.all fun p =>
      carry_over_parents.contains p || currentKeys.contains p then
    (payload, { st with
      next_gates := update_item_payload st.next_gates child payload,
      carry_overs := carry2 })
  else
    (payload, { st with
      carry_overs := update_item_carry carry2 child [(gate_key, ar)] })

/-- One iteration of the inner `for child in self[gate_key]` loop: the
conditional evaluation, the required-parent filter, the carry-over merge
(which in Python mutates `activation_result`, so the merged payload is
returned for the next iteration) and the scheduling/parking decision. -/
def child_step (net : GateNetwork) (currentKeys : List String)
    (gate_key child : String) (activation_result : PyValueMap)
    (st : StepState) : Except PyErr (PyValueMap × StepState) :=
  match cond_proceed net gate_key child activation_result with
  | .error e => .error e
  | .ok false => .ok (activation_result, st)
  | .ok true =>
    let parents := required_parents net gate_key child
      (net.condLookup (gate_key, child)).isSome
    match alistPop st.carry_overs child with
    | some (parked, carryRest) =>
      let payload := parked.foldl
        (fun (acc : PyValueMap) (kv : String × PyValueMap) =>
          acc.updateWith kv.2)
        activation_result
      .ok (schedule_or_park currentKeys gate_key child parents
        (parked.map Prod.fst) payload activation_result carryRest st)
    | none =>
      .ok (schedule_or_park currentKeys gate_key child parents
        [] activation_result activation_result st.carry_overs st)

/-- The inner `for child in self[gate_key]` loop, threading the (possibly
carry-over-merged) activation result and the step state. -/
def process_children (net : GateNetwork) (currentKeys : List String)
    (gate_key : String) :
    List String → PyValueMap → StepState → Except PyErr (PyValueMap × StepState)
  | [], activation_result, st => .ok (activation_result, st)
  | child :: rest, activation_result, st =>
    match child_step net currentKeys gate_key child activation_result st with
    | .error e => .error e
    | .ok (ar2, st2) => process_children net currentKeys gate_key rest ar2 st2

/-- The outer `for gate_key, activation_result in current.items()` loop. -/
def process_gates (net : GateNetwork) (currentKeys : List String) :
    List (String × PyValueMap) → StepState → Except PyErr StepState
  | [], st => .ok st
  | (gate_key, activation_result) :: rest, st =>
    match net.nodes.lookup gate_key with
    | none => .error .keyError
    | some g =>
      if g.succ.isEmpty then
        process_gates net currentKeys rest
          { st with completed := alistSet st.completed gate_key activation_result }
      else do
        let (_, st2) ← process_children net currentKeys gate_key g.succ
          activation_result st
        process_gates net currentKeys rest st2

/-- The final activation pass: every scheduled gate is activated exactly
once on its merged input (`self[next_gate_key](activation_input)`; a
missing gate raises `KeyError`). -/
def activate_all (net : GateNetwork) :
    List (String × PyValueMap) → Except PyErr (List (String × PyValueMap))
  | [] => .ok []
  | (k, p) :: rest =>
    match net.nodes.lookup k with
    | none => .error .keyError
    | some g => do
      let tail ← activate_all net rest
      pure ((k, g.activate (some p)) :: tail)

/-- `GateNetwork._get_next_generation(current, carry_overs, completed)`:
the next generation, the updated carry-overs and the updated completed
map. -/
def get_next_generation (net : GateNetwork) (current : List (String × PyValueMap))
    (carry_overs : List (String × List (String × PyValueMap)))
    (completed : List (String × PyValueMap)) :
    Except PyErr (List (String × PyValueMap) ×
      List (String × List (String × PyValueMap)) × List (String × PyValueMap)) := do
  let st ← process_gates net (current.map Prod.fst) current
    { next_gates := [], carry_overs := carry_overs, completed := completed }
  let next_generation ← activate_all net st.next_gates
  pure (next_generation, st.carry_overs, st.completed)

/-- Outcome of `GateNetwork._resolve`'s `while True` loop under fuel. -/
inductive RunOut where
  | done (completed : List (String × PyValueMap))
  | raised (e : PyErr)
  | outOfFuel

/-- The `while True` loop of `_resolve`: compute the next generation and
return `completed` once it is empty.  The returned `Nat` counts the
`generation_count` increments performed. -/
def resolve_loop (net : GateNetwork) :
    Nat → List (String × PyValueMap) →
    List (String × List (String × PyValueMap)) → List (String × PyValueMap) →
    RunOut × Nat
  | 0, _, _, _ => (.outOfFuel, 0)
  | fuel + 1, current, carry_overs, completed =>
    match get_next_generation net current carry_overs completed with
    | .error e => (.raised e, 1)
    | .ok (next_gen, carry2, completed2) =>
      if next_gen.isEmpty then (.done completed2, 1)
      else
        let (out, n) := resolve_loop net fuel next_gen carry2 completed2
        (out, n + 1)

/-- `GateNetwork._resolve(gate_key, payload)`: activate the start gate on
the initial payload and run the loop. -/
def gate_resolve (net : GateNetwork) (fuel : Nat) (gate_key : String)
    (payload : Option PyValueMap) : RunOut × Nat :=
  match net.nodes.lookup gate_key with
  | none => (.raised .keyError, 0)
  | some g => resolve_loop net fuel [(gate_key, g.activate payload)] [] []

/-- `GateNetwork.run(start, initial_payload)`: set the busy flag, run, clear
the flag and return the result.  The isolated-gates check only issues a
warning.  An exception (and, in the model, fuel exhaustion) leaves the busy
flag set because `run` has no `finally` clause. -/
def gate_run (net : GateNetwork) (fuel : Nat) (start : String)
    (payload : Option PyValueMap) : RunOut × GateNetwork :=
  let busy := { net with is_busy := true }
  match gate_resolve busy fuel start payload with
  | (.done c, n) =>
    (.done c, { busy with is_busy := false, generation_count := busy.generation_count + n })
  | (.raised e, n) =>
    (.raised e, { busy with generation_count := busy.generation_count + n })
  | (.outOfFuel, n) =>
    (.outOfFuel, { busy with generation_count := busy.generation_count + n })

/-- `GateNetwork._on_receive(received)` with the request already parsed from
its JSON bytes into `(start, payload)`: when the network is not busy the
run's result is returned (and would be JSON-encoded); when it is busy the
literal 4-byte payload `b"BUSY"` is returned and nothing is touched. -/
def network_on_receive (net : GateNetwork) (fuel : Nat) (start : String)
    (payload : Option PyValueMap) : (List Nat ⊕ RunOut) × GateNetwork :=
  if !net.is_busy then
    let (out, net2) := gate_run net fuel start payload
    (Sum.inr out, net2)
  else
    (Sum.inl [66, 85, 83, 89], net)

/-- C6: whenever the busy flag is set, a received run request short-circuits
to the literal 4-byte payload `b"BUSY"` (bytes `[66, 85, 83, 89]`) and the
network state — gates, edges, conditional-edge table, clients, context,
busy flag, generation counter — is returned untouched. -/
theorem busy_guard (net : GateNetwork) (fuel : Nat) (start : String)
    (payload : Option PyValueMap) (h : net.is_busy = true) :
    network_on_receive net fuel start payload = (Sum.inl [66, 85, 83, 89], net) := by
  simp [network_on_receive, h]

/-- A busy network with no gates. -/
def busyIdleNet : GateNetwork :=
  { nodes := [], is_busy := true }

/-- Witness for the busy guard at a concrete busy network. -/
theorem busy_guard_witness :
    network_on_receive busyIdleNet 3 "a" none =
      (Sum.inl [66, 85, 83, 89], busyIdleNet) :=
  busy_guard busyIdleNet 3 "a" none rfl

/-! ## `GateNetwork.define_client` / `delete_client` (C8, C9)

```python
def define_client(self, label, target_hostname, target_port, type="tcp"):
    if self.client_exists(type, target_hostname, target_port):
        raise RuntimeError(...)
    self._clients[label] = client_types[type](target_hostname, target_port)

def client_exists(self, type, target_hostname, target_port):
    for client in self._clients.values():
        if client.target_address == (target_hostname, target_port) and isinstance(client, client_types[type]):
            return True
    return False

def delete_client(self, label):
    type, target_hostname, target_port = self._clients.pop(label)
    for gate in self.values():
        if isinstance(gate.client, client_types[type]):
            if gate.client.target_address == (target_hostname, target_port):
                gate.client = None
```
-/

/-- `type in client_types` — `"tcp"` is the only registered connection
type; `client_types[other]` raises `KeyError`. -/
def client_type_known (t : String) : Bool := t == "tcp"

/-- The loop of `client_exists`: `isinstance(client, client_types[type])` is
only evaluated (and can only raise `KeyError`) after the address matched,
because `and` short-circuits. -/
def clients_match : List (String × ClientInfo) → String → String → Int →
    Except PyErr Bool
  | [], _, _, _ => .ok false
  | (_, c) :: rest, ctype, hostname, port =>
    if c.hostname == hostname && c.port == port then
      if client_type_known ctype then
        if c.ctype == ctype then .ok true else clients_match rest ctype hostname port
      else .error .keyError
    else clients_match rest ctype hostname port

/-- `GateNetwork.client_exists(type, hostname, port)`. -/
def client_exists (net : GateNetwork) (ctype hostname : String) (port : Int) :
    Except PyErr Bool :=
  clients_match net.clients ctype hostname port

/-- `GateNetwork.define_client(label, hostname, port, type)`: only an
address-and-type collision raises; the label is then assigned with plain
dict semantics, silently replacing any client already stored under it. -/
def define_client (net : GateNetwork) (label target_hostname : String)
    (target_port : Int) (ctype : String) : Except PyErr GateNetwork := do
  let ex ← client_exists net ctype target_hostname target_port
  if ex then .error .runtimeError
  else if !client_type_known ctype then .error .keyError
  else
    let cl2 := alistSet net.clients label ⟨ctype, target_hostname, target_port⟩
    .ok { net with clients := cl2 }

/-- Two successive definitions under the same label `"a"` with different
addresses. -/
def netTwoDefines : Except PyErr GateNetwork :=
  match define_client { nodes := [] } "a" "h" 1 "tcp" with
  | .ok n => define_client n "a" "h2" 2 "tcp"
  | .error e => .error e

/-- C8 (counterexample): `define_client` does not fail on a pure label
collision.  Defining `"a" → ("tcp","h",1)` and then `"a" → ("tcp","h2",2)`
succeeds and silently replaces the first client, although the claim (and
the `RuntimeError` message's own wording) requires the second call to fail
and leave the table unchanged. -/
theorem define_client_label_collision_counterexample :
    netTwoDefines = .ok { nodes := [], clients := [("a", ⟨"tcp", "h2", 2⟩)] } := by
  rfl

/-- C8 (amended): `define_client` fails (raising, with the client table
unmutated — the assignment is never reached) exactly when the new client's
(type, hostname, port) triple collides with an existing client of the same
connection type; when no such collision exists the client is stored under
the label, silently replacing any previous client with that label. -/
theorem define_client_amended (net : GateNetwork) (label hostname : String)
    (port : Int) :
    (client_exists net "tcp" hostname port = .ok true →
      define_client net label hostname port "tcp" = .error .runtimeError) ∧
    (client_exists net "tcp" hostname port = .ok false →
      define_client net label hostname port "tcp" =
        .ok { net with
          clients := alistSet net.clients label ⟨"tcp", hostname, port⟩ }) := by
  constructor
  · intro h
    simp [define_client, h, bind, Except.bind]
  · intro h
    simp [define_client, h, bind, Except.bind, client_type_known]

/-- Witness for the amended C8 theorem: a collision on `("tcp","h",1)` is
refused; a fresh address is accepted. -/
theorem define_client_amended_witness :
    (client_exists { nodes := [], clients := [("a", ⟨"tcp", "h", 1⟩)] } "tcp" "h" 1 =
        .ok true →
      define_client { nodes := [], clients := [("a", ⟨"tcp", "h", 1⟩)] } "b" "h" 1 "tcp" =
        .error .runtimeError) ∧
      (client_exists { nodes := [], clients := [("a", ⟨"tcp", "h", 1⟩)] } "tcp" "h" 1 =
          .ok false →
        define_client { nodes := [], clients := [("a", ⟨"tcp", "h", 1⟩)] } "b" "h" 1 "tcp" =
          .ok { nodes := [], clients :=
            alistSet [("a", ⟨"tcp", "h", 1⟩)] "b" ⟨"tcp", "h", 1⟩ }) :=
  define_client_amended { nodes := [], clients := [("a", ⟨"tcp", "h", 1⟩)] } "b" "h" 1

/-- `type, target_hostname, target_port = client`: `ClientABC` defines no
iteration, so tuple-unpacking any client object raises `TypeError`
("cannot unpack non-iterable TCPClient object"). -/
def client_unpack3 (_c : ClientInfo) : Except PyErr (String × String × Int) :=
  .error .typeError

/-- `GateNetwork.delete_client(label)`: pop the client (a missing label
raises `KeyError`), tuple-unpack it, and clear the bound-client reference
of every gate bound to it.  The unpack step raises `TypeError` on every
client object, so the unbinding loop below it is unreachable. -/
def delete_client (net : GateNetwork) (label : String) :
    Except PyErr GateNetwork := do
  match alistPop net.clients label with
  | none => .error .keyError
  | some (client, remaining) => do
    let (ctype, hostname, port) ← client_unpack3 client
    .ok { net with
      clients := remaining,
      nodes := net.nodes.map fun kg =>
        if kg.2.client == some ⟨ctype, hostname, port⟩ then
          (kg.1, { kg.2 with client := none })
        else kg }

/-- C9 (code evaluated at the failing input): for every label present in
the client table, `delete_client` raises `TypeError` while tuple-unpacking
the popped client object — it never completes, and no gate binding is ever
cleared.  (The claim, matching the method's docstring, says it completes
and clears the bindings.) -/
theorem delete_client_always_raises (net : GateNetwork) (label : String)
    (c : ClientInfo) (rest : List (String × ClientInfo))
    (h : alistPop net.clients label = some (c, rest)) :
    delete_client net label = .error .typeError := by
  simp [delete_client, h, client_unpack3, bind, Except.bind]

/-- Witness for C9 at a network holding one client `"a"`. -/
theorem delete_client_always_raises_witness :
    delete_client { nodes := [], clients := [("a", ⟨"tcp", "h", 1⟩)] } "a" =
      .error .typeError :=
  delete_client_always_raises { nodes := [], clients := [("a", ⟨"tcp", "h", 1⟩)] }
    "a" ⟨"tcp", "h", 1⟩ [] rfl

/-! ### Properties of the scheduling step (towards C1 and C2) -/

theorem alistSet_lookup_self {α β : Type} [BEq α] [LawfulBEq α] :
    ∀ (m : List (α × β)) (k : α) (v : β), (alistSet m k v).lookup k = some v
  | [], k, v => by simp [alistSet, List.lookup]
  | (k', v') :: rest, k, v => by
    by_cases h : k' = k
    · subst h
      simp [alistSet, List.lookup]
    · have h1 : (k' == k) = false := by simpa using h
      have h2 : (k == k') = false := by simpa using (Ne.symm h)
      simp [alistSet, h1, h2, List.lookup, alistSet_lookup_self rest k v]

theorem alistSet_lookup_ne {α β : Type} [BEq α] [LawfulBEq α] :
    ∀ (m : List (α × β)) (k x : α) (v : β), (x == k) = false →
      (alistSet m k v).lookup x = m.lookup x
  | [], k, x, v, h => by simp [alistSet, List.lookup, h]
  | (k', v') :: rest, k, x, v, h => by
    by_cases hk : k' = k
    · subst hk
      simp [alistSet, List.lookup, h]
    · have h1 : (k' == k) = false := by simpa using hk
      simp only [alistSet, h1, Bool.false_eq_true, if_false]
      by_cases hx : x = k'
      · subst hx
        simp [List.lookup]
      · have h2 : (x == k') = false := by simpa using hx
        simp [List.lookup, h2, alistSet_lookup_ne rest k x v h]

theorem update_item_payload_isSome_self (m : List (String × PyValueMap))
    (k : String) (v : PyValueMap) :
    ((update_item_payload m k v).lookup k).isSome = true := by
  unfold update_item_payload
  cases h : m.lookup k <;> simp [alistSet_lookup_self]

theorem update_item_payload_lookup_ne (m : List (String × PyValueMap))
    (k x : String) (v : PyValueMap) (h : (x == k) = false) :
    (update_item_payload m k v).lookup x = m.lookup x := by
  unfold update_item_payload
  cases hm : m.lookup k <;> simp [alistSet_lookup_ne _ _ _ _ h]

theorem update_item_payload_fresh (m : List (String × PyValueMap))
    (k : String) (v : PyValueMap) (h : m.lookup k = none) :
    (update_item_payload m k v).lookup k = some v := by
  unfold update_item_payload
  rw [h]
  exact alistSet_lookup_self m k v

/-- Every parent the required-parent filter keeps is the processed gate
itself: the `parent != gate_key` clause removes all others. -/
theorem required_parents_eq_gate_key (net : GateNetwork)
    (gate_key child : String) (icond : Bool) (p : String)
    (hp : p ∈ required_parents net gate_key child icond) : p = gate_key := by
  unfold required_parents at hp
  have := List.of_mem_filter hp
  simp only [Bool.not_eq_true', Bool.or_eq_false_iff] at this
  have hne := this.2
  simpa [bne] using hne

/-- Hence the barrier check always passes when the processed gate is in the
current generation. -/
theorem required_parents_all_covered (net : GateNetwork)
    (gate_key child : String) (icond : Bool) (cops currentKeys : List String)
    (hg : currentKeys.contains gate_key = true) :
    ((required_parents net gate_key child icond).all fun p =>
      cops.contains p || currentKeys.contains p) = true := by
  rw [List.all_eq_true]
  intro p hp
  have := required_parents_eq_gate_key net gate_key child icond p hp
  subst this
  have hmem : p ∈ currentKeys := by simpa [List.contains] using hg
  simp [hmem]

/-- With the processed gate in the current generation, `schedule_or_park`
always schedules: the parked branch of the algorithm is unreachable. -/
theorem schedule_or_park_schedules (currentKeys : List String)
    (gate_key child : String) (net : GateNetwork) (icond : Bool)
    (cops : List String) (payload ar : PyValueMap)
    (carry2 : List (String × List (String × PyValueMap))) (st : StepState)
    (hg : currentKeys.contains gate_key = true) :
    schedule_or_park currentKeys gate_key child
        (required_parents net gate_key child icond) cops payload ar carry2 st =
      (payload, { st with
        next_gates := update_item_payload st.next_gates child payload,
        carry_overs := carry2 }) := by
  unfold schedule_or_park
  rw [required_parents_all_covered net gate_key child icond cops currentKeys hg]
  simp

/-- The step state a `child_step` produces changes `next_gates` at most at
`child` (via `update_item`). -/
theorem child_step_next_gates_shape (net : GateNetwork)
    (currentKeys : List String) (gate_key child : String) (ar : PyValueMap)
    (st : StepState) (ar2 : PyValueMap) (st2 : StepState)
    (hok : child_step net currentKeys gate_key child ar st = .ok (ar2, st2)) :
    st2.next_gates = st.next_gates ∨
      ∃ p, st2.next_gates = update_item_payload st.next_gates child p := by
  unfold child_step at hok
  cases hcp : cond_proceed net gate_key child ar with
  | error e =>
    rw [hcp] at hok
    exact absurd hok (by simp)
  | ok proceed =>
    rw [hcp] at hok
    cases proceed with
    | false =>
      simp only [Except.ok.injEq, Prod.mk.injEq] at hok
      left
      rw [← hok.2]
    | true =>
      cases hpop : alistPop st.carry_overs child with
      | none =>
        simp only [hpop] at hok
        unfold schedule_or_park at hok
        split at hok <;>
          (simp only [Except.ok.injEq, Prod.mk.injEq] at hok
           rw [← hok.2])
        · right
          exact ⟨ar, rfl⟩
        · left
          rfl
      | some pr =>
        obtain ⟨parked, carryRest⟩ := pr
        simp only [hpop] at hok
        unfold schedule_or_park at hok
        split at hok <;>
          (simp only [Except.ok.injEq, Prod.mk.injEq] at hok
           rw [← hok.2])
        · right
          refine ⟨_, rfl⟩
        · left
          rfl

/-- `child_step` never removes a scheduled gate. -/
theorem child_step_preserves_isSome (net : GateNetwork)
    (currentKeys : List String) (gate_key child x : String) (ar : PyValueMap)
    (st : StepState) (ar2 : PyValueMap) (st2 : StepState)
    (hok : child_step net currentKeys gate_key child ar st = .ok (ar2, st2))
    (hx : (st.next_gates.lookup x).isSome = true) :
    (st2.next_gates.lookup x).isSome = true := by
  rcases child_step_next_gates_shape net currentKeys gate_key child ar st ar2 st2 hok with
    h | ⟨p, h⟩
  · rw [h]
    exact hx
  · rw [h]
    by_cases hxc : x = child
    · subst hxc
      exact update_item_payload_isSome_self _ _ _
    · rw [update_item_payload_lookup_ne _ _ _ _ (by simpa using hxc)]
      exact hx

/-- `child_step` leaves the scheduling of every other gate untouched. -/
theorem child_step_lookup_ne (net : GateNetwork) (currentKeys : List String)
    (gate_key child x : String) (ar : PyValueMap) (st : StepState)
    (ar2 : PyValueMap) (st2 : StepState)
    (hok : child_step net currentKeys gate_key child ar st = .ok (ar2, st2))
    (hxc : (x == child) = false) :
    st2.next_gates.lookup x = st.next_gates.lookup x := by
  rcases child_step_next_gates_shape net currentKeys gate_key child ar st ar2 st2 hok with
    h | ⟨p, h⟩
  · rw [h]
  · rw [h, update_item_payload_lookup_ne _ _ _ _ hxc]

/-- Along an unconditional edge from a gate of the current generation,
`child_step` always succeeds and schedules the child: the collapsed barrier
(`required_parents` ⊆ `{gate_key}` ⊆ current) cannot block it. -/
theorem child_step_uncond_schedules (net : GateNetwork)
    (currentKeys : List String) (gate_key child : String) (ar : PyValueMap)
    (st : StepState)
    (hg : currentKeys.contains gate_key = true)
    (hcond : net.condLookup (gate_key, child) = none) :
    ∃ pay st2, child_step net currentKeys gate_key child ar st = .ok (pay, st2) ∧
      (st2.next_gates.lookup child).isSome = true := by
  unfold child_step cond_proceed
  rw [hcond]
  simp only [Option.isSome_none]
  cases hpop : alistPop st.carry_overs child with
  | none =>
    simp only [hpop]
    rw [schedule_or_park_schedules currentKeys gate_key child net false [] ar ar
      st.carry_overs st hg]
    exact ⟨ar, _, rfl, update_item_payload_isSome_self _ _ _⟩
  | some pr =>
    obtain ⟨parked, carryRest⟩ := pr
    simp only [hpop]
    rw [schedule_or_park_schedules currentKeys gate_key child net false
      (parked.map Prod.fst) _ ar carryRest st hg]
    exact ⟨_, _, rfl, update_item_payload_isSome_self _ _ _⟩

/-- With the processed gate in the current generation and no parked
payloads, `child_step` keeps the activation result and the (empty)
carry-over table unchanged. -/
theorem child_step_empty_carry_stable (net : GateNetwork)
    (currentKeys : List String) (gate_key child : String) (ar : PyValueMap)
    (st : StepState) (ar2 : PyValueMap) (st2 : StepState)
    (hg : currentKeys.contains gate_key = true)
    (hcarry : st.carry_overs = [])
    (hok : child_step net currentKeys gate_key child ar st = .ok (ar2, st2)) :
    ar2 = ar ∧ st2.carry_overs = [] := by
  unfold child_step at hok
  cases hcp : cond_proceed net gate_key child ar with
  | error e =>
    rw [hcp] at hok
    exact absurd hok (by simp)
  | ok proceed =>
    rw [hcp] at hok
    cases proceed with
    | false =>
      simp only [Except.ok.injEq, Prod.mk.injEq] at hok
      exact ⟨hok.1.symm, by rw [← hok.2]; exact hcarry⟩
    | true =>
      have hpop : alistPop st.carry_overs child = none := by
        rw [hcarry]
        rfl
      simp only [hpop] at hok
      rw [schedule_or_park_schedules currentKeys gate_key child net _ [] ar ar
        st.carry_overs st hg] at hok
      simp only [Except.ok.injEq, Prod.mk.injEq] at hok
      exact ⟨hok.1.symm, by rw [← hok.2]; exact hcarry⟩

/-- On a conditional edge with no parked payloads, `child_step` schedules
the child exactly when the predicate accepts, with the unchanged activation
result as the payload. -/
theorem child_step_cond_empty_carry (net : GateNetwork)
    (currentKeys : List String) (gate_key child : String) (ar : PyValueMap)
    (st : StepState) (k : String) (e : PyValue → PyValue → Bool) (v w : PyValue)
    (hg : currentKeys.contains gate_key = true)
    (hcarry : st.carry_overs = [])
    (hcond : net.condLookup (gate_key, child) = some (k, e, v))
    (hlook : get_nested k (.map ar) = .ok w) :
    child_step net currentKeys gate_key child ar st =
      .ok (ar,
        if e v w then
          { st with next_gates := update_item_payload st.next_gates child ar }
        else st) := by
  unfold child_step cond_proceed
  rw [hcond]
  simp only [hlook]
  cases hev : e v w with
  | false => simp [hev]
  | true =>
    simp only [hev]
    have hpop : alistPop st.carry_overs child = none := by
      rw [hcarry]
      rfl
    simp only [hpop]
    rw [schedule_or_park_schedules currentKeys gate_key child net _ [] ar ar
      st.carry_overs st hg]
    simp

/-- The inner loop never removes a scheduled gate. -/
theorem process_children_preserves_isSome (net : GateNetwork)
    (currentKeys : List String) (gate_key x : String) :
    ∀ (lst : List String) (ar : PyValueMap) (st : StepState)
      (ar2 : PyValueMap) (st2 : StepState),
      process_children net currentKeys gate_key lst ar st = .ok (ar2, st2) →
      (st.next_gates.lookup x).isSome = true →
      (st2.next_gates.lookup x).isSome = true
  | [], ar, st, ar2, st2, hok, hx => by
    simp only [process_children, Except.ok.injEq, Prod.mk.injEq] at hok
    rw [← hok.2]
    exact hx
  | child :: rest, ar, st, ar2, st2, hok, hx => by
    simp only [process_children] at hok
    cases hcs : child_step net currentKeys gate_key child ar st with
    | error e =>
      rw [hcs] at hok
      exact absurd hok (by simp)
    | ok pr =>
      obtain ⟨arm, stm⟩ := pr
      rw [hcs] at hok
      exact process_children_preserves_isSome net currentKeys gate_key x rest
        arm stm ar2 st2 hok
        (child_step_preserves_isSome net currentKeys gate_key child x ar st
          arm stm hcs hx)

/-- The inner loop leaves gates outside the child list untouched in
`next_gates`. -/
theorem process_children_lookup_ne (net : GateNetwork)
    (currentKeys : List String) (gate_key x : String) :
    ∀ (lst : List String) (ar : PyValueMap) (st : StepState)
      (ar2 : PyValueMap) (st2 : StepState),
      x ∉ lst →
      process_children net currentKeys gate_key lst ar st = .ok (ar2, st2) →
      st2.next_gates.lookup x = st.next_gates.lookup x
  | [], ar, st, ar2, st2, hnil, hok => by
    simp only [process_children, Except.ok.injEq, Prod.mk.injEq] at hok
    rw [← hok.2]
  | child :: rest, ar, st, ar2, st2, hnin, hok => by
    simp only [process_children] at hok
    cases hcs : child_step net currentKeys gate_key child ar st with
    | error e =>
      rw [hcs] at hok
      exact absurd hok (by simp)
    | ok pr =>
      obtain ⟨arm, stm⟩ := pr
      rw [hcs] at hok
      have hxc : (x == child) = false := by
        simp only [List.mem_cons, not_or] at hnin
        simpa using hnin.1
      rw [process_children_lookup_ne net currentKeys gate_key x rest arm stm
        ar2 st2 (by simp only [List.mem_cons, not_or] at hnin; exact hnin.2) hok]
      exact child_step_lookup_ne net currentKeys gate_key child x ar st arm stm
        hcs hxc

/-- As long as a child list is processed for a gate of the current
generation with an empty carry-over table, the activation result and the
carry-over table are left unchanged. -/
theorem process_children_empty_carry_stable (net : GateNetwork)
    (currentKeys : List String) (gate_key : String)
    (hg : currentKeys.contains gate_key = true) :
    ∀ (lst : List String) (ar : PyValueMap) (st : StepState)
      (ar2 : PyValueMap) (st2 : StepState),
      st.carry_overs = [] →
      process_children net currentKeys gate_key lst ar st = .ok (ar2, st2) →
      ar2 = ar ∧ st2.carry_overs = []
  | [], ar, st, ar2, st2, hcarry, hok => by
    simp only [process_children, Except.ok.injEq, Prod.mk.injEq] at hok
    exact ⟨hok.1.symm, by rw [← hok.2]; exact hcarry⟩
  | child :: rest, ar, st, ar2, st2, hcarry, hok => by
    simp only [process_children] at hok
    cases hcs : child_step net currentKeys gate_key child ar st with
    | error e =>
      rw [hcs] at hok
      exact absurd hok (by simp)
    | ok pr =>
      obtain ⟨arm, stm⟩ := pr
      rw [hcs] at hok
      obtain ⟨ham, hcm⟩ := child_step_empty_carry_stable net currentKeys
        gate_key child ar st arm stm hg hcarry hcs
      have := process_children_empty_carry_stable net currentKeys gate_key hg
        rest arm stm ar2 st2 hcm hok
      rw [ham] at this
      exact this

/-- The inner loop schedules the child of every unconditional edge out of a
gate of the current generation. -/
theorem process_children_schedules_uncond (net : GateNetwork)
    (currentKeys : List String) (gate_key c : String)
    (hg : currentKeys.contains gate_key = true)
    (hcond : net.condLookup (gate_key, c) = none) :
    ∀ (lst : List String) (ar : PyValueMap) (st : StepState)
      (ar2 : PyValueMap) (st2 : StepState),
      c ∈ lst →
      process_children net currentKeys gate_key lst ar st = .ok (ar2, st2) →
      (st2.next_gates.lookup c).isSome = true
  | [], _, _, _, _, hmem, _ => absurd hmem (List.not_mem_nil c)
  | child :: rest, ar, st, ar2, st2, hmem, hok => by
    simp only [process_children] at hok
    cases hcs : child_step net currentKeys gate_key child ar st with
    | error e =>
      rw [hcs] at hok
      exact absurd hok (by simp)
    | ok pr =>
      obtain ⟨arm, stm⟩ := pr
      rw [hcs] at hok
      by_cases hc : c = child
      · subst hc
        obtain ⟨pay, stw, hcs2, hsome⟩ := child_step_uncond_schedules net
          currentKeys gate_key c ar st hg hcond
        rw [hcs2] at hcs
        simp only [Except.ok.injEq, Prod.mk.injEq] at hcs
        rw [hcs.2] at hsome
        exact process_children_preserves_isSome net currentKeys gate_key c rest
          arm stm ar2 st2 hok hsome
      · have hmem' : c ∈ rest := by
          rcases List.mem_cons.mp hmem with h | h
          · exact absurd h hc
          · exact h
        exact process_children_schedules_uncond net currentKeys gate_key c hg
          hcond rest arm stm ar2 st2 hmem' hok

/-- On a conditional edge out of a gate of the current generation, with no
parked payloads and the child not yet scheduled, the inner loop schedules
the child exactly when the predicate accepts its activation result — and
then with exactly that activation result as the payload. -/
theorem process_children_cond_routing (net : GateNetwork)
    (currentKeys : List String) (gate_key x k : String)
    (e : PyValue → PyValue → Bool) (v w : PyValue)
    (hg : currentKeys.contains gate_key = true)
    (hcond : net.condLookup (gate_key, x) = some (k, e, v)) :
    ∀ (lst : List String) (ar : PyValueMap) (st : StepState)
      (ar2 : PyValueMap) (st2 : StepState),
      st.carry_overs = [] →
      lst.Nodup →
      x ∈ lst →
      st.next_gates.lookup x = none →
      get_nested k (.map ar) = .ok w →
      process_children net currentKeys gate_key lst ar st = .ok (ar2, st2) →
      st2.next_gates.lookup x = if e v w then some ar else none
  | [], _, _, _, _, _, _, hmem, _, _, _ => absurd hmem (List.not_mem_nil x)
  | child :: rest, ar, st, ar2, st2, hcarry, hnd, hmem, hnone, hlook, hok => by
    simp only [process_children] at hok
    cases hcs : child_step net currentKeys gate_key child ar st with
    | error err =>
      rw [hcs] at hok
      exact absurd hok (by simp)
    | ok pr =>
      obtain ⟨arm, stm⟩ := pr
      rw [hcs] at hok
      obtain ⟨hhead, hndrest⟩ := List.nodup_cons.mp hnd
      by_cases hx : x = child
      · subst hx
        have hstep := child_step_cond_empty_carry net currentKeys gate_key x
          ar st k e v w hg hcarry hcond hlook
        rw [hstep] at hcs
        simp only [Except.ok.injEq, Prod.mk.injEq] at hcs
        have hpres := process_children_lookup_ne net currentKeys gate_key x
          rest arm stm ar2 st2 hhead hok
        rw [hpres, ← hcs.2]
        cases hev : e v w with
        | true =>
          simp only [hev, if_true]
          exact update_item_payload_fresh _ _ _ hnone
        | false =>
          simp only [hev, Bool.false_eq_true, if_false]
          exact hnone
      · have hmem' : x ∈ rest := by
          rcases List.mem_cons.mp hmem with h | h
          · exact absurd h hx
          · exact h
        obtain ⟨ham, hcm⟩ := child_step_empty_carry_stable net currentKeys
          gate_key child ar st arm stm hg hcarry hcs
        have hnone' : stm.next_gates.lookup x = none := by
          rw [child_step_lookup_ne net currentKeys gate_key child x ar st arm
            stm hcs (by simpa using hx)]
          exact hnone
        subst ham
        exact process_children_cond_routing net currentKeys gate_key x k e v w
          hg hcond rest arm stm ar2 st2 hcm hndrest hmem' hnone' hlook hok

/-- The outer loop never removes a scheduled gate. -/
theorem process_gates_preserves_isSome (net : GateNetwork)
    (currentKeys : List String) (x : String) :
    ∀ (current : List (String × PyValueMap)) (st res : StepState),
      process_gates net currentKeys current st = .ok res →
      (st.next_gates.lookup x).isSome = true →
      (res.next_gates.lookup x).isSome = true
  | [], st, res, hok, hx => by
    simp only [process_gates, Except.ok.injEq] at hok
    rw [← hok]
    exact hx
  | (gate_key, ar) :: rest, st, res, hok, hx => by
    simp only [process_gates] at hok
    cases hlk : net.nodes.lookup gate_key with
    | none =>
      simp only [hlk] at hok
      exact absurd hok (by simp)
    | some g =>
      simp only [hlk] at hok
      by_cases hie : g.succ.isEmpty = true
      · rw [if_pos hie] at hok
        exact process_gates_preserves_isSome net currentKeys x rest _ res hok hx
      · rw [if_neg hie] at hok
        cases hpc : process_children net currentKeys gate_key g.succ ar st with
        | error err =>
          simp only [hpc, bind, Except.bind] at hok
          exact absurd hok (by simp)
        | ok pr =>
          obtain ⟨arm, stm⟩ := pr
          simp only [hpc, bind, Except.bind] at hok
          exact process_gates_preserves_isSome net currentKeys x rest stm res hok
            (process_children_preserves_isSome net currentKeys gate_key x
              g.succ ar st arm stm hpc hx)

/-- The outer loop schedules the child of every unconditional edge out of
every gate of the current generation. -/
theorem process_gates_schedules_uncond (net : GateNetwork) (g c : String)
    (gg : Gate) (r : PyValueMap) (currentKeys : List String)
    (hga : net.nodes.lookup g = some gg) (hcs : c ∈ gg.succ)
    (hcond : net.condLookup (g, c) = none)
    (hg : currentKeys.contains g = true) :
    ∀ (current : List (String × PyValueMap)) (st res : StepState),
      (g, r) ∈ current →
      process_gates net currentKeys current st = .ok res →
      (res.next_gates.lookup c).isSome = true
  | [], _, _, hmem, _ => absurd hmem (List.not_mem_nil (g, r))
  | (gate_key, ar) :: rest, st, res, hmem, hok => by
    simp only [process_gates] at hok
    rcases List.mem_cons.mp hmem with heq | hmem'
    · obtain ⟨hgk, har⟩ := Prod.mk.injEq .. ▸ heq
      subst hgk
      subst har
      simp only [hga] at hok
      have hie : ¬gg.succ.isEmpty = true := by
        cases hsucc : gg.succ with
        | nil =>
          rw [hsucc] at hcs
          exact absurd hcs (List.not_mem_nil c)
        | cons a b => simp
      rw [if_neg hie] at hok
      cases hpc : process_children net currentKeys g gg.succ r st with
      | error err =>
        simp only [hpc, bind, Except.bind] at hok
        exact absurd hok (by simp)
      | ok pr =>
        obtain ⟨arm, stm⟩ := pr
        simp only [hpc, bind, Except.bind] at hok
        exact process_gates_preserves_isSome net currentKeys c rest stm res hok
          (process_children_schedules_uncond net currentKeys g c hg hcond
            gg.succ r st arm stm hcs hpc)
    · cases hlk : net.nodes.lookup gate_key with
      | none =>
        simp only [hlk] at hok
        exact absurd hok (by simp)
      | some gh =>
        simp only [hlk] at hok
        by_cases hie : gh.succ.isEmpty = true
        · rw [if_pos hie] at hok
          exact process_gates_schedules_uncond net g c gg r currentKeys hga hcs
            hcond hg rest _ res hmem' hok
        · rw [if_neg hie] at hok
          cases hpc : process_children net currentKeys gate_key gh.succ ar st with
          | error err =>
            simp only [hpc, bind, Except.bind] at hok
            exact absurd hok (by simp)
          | ok pr =>
            obtain ⟨arm, stm⟩ := pr
            simp only [hpc, bind, Except.bind] at hok
            exact process_gates_schedules_uncond net g c gg r currentKeys hga
              hcs hcond hg rest stm res hmem' hok

/-- C1 (amended): the join barrier of the resolution algorithm collapses to
the firing parent alone.  The `parent != gate_key` clause of the
required-parent filter keeps that barrier inside the current generation's
own gate, so for every network, whenever a gate `g` of the current
generation has an unconditional edge to a child `c`, `c` is scheduled for
activation in the very next generation — without waiting for any other
unconditional parent (the in-code comment calls this deliberate).  Join
("AND") semantics therefore does not hold: with unconditional parents `A`
and `B`, running from `A` alone activates `C`, once, with only `A`'s
payload (see the counterexample). -/
theorem relaxed_join_barrier (net : GateNetwork) (g c : String) (gg : Gate)
    (r : PyValueMap) (current : List (String × PyValueMap)) (st res : StepState)
    (hga : net.nodes.lookup g = some gg) (hcs : c ∈ gg.succ)
    (hcond : net.condLookup (g, c) = none)
    (hmem : (g, r) ∈ current)
    (hok : process_gates net (current.map Prod.fst) current st = .ok res) :
    (res.next_gates.lookup c).isSome = true := by
  have hg : (current.map Prod.fst).contains g = true := by
    have : g ∈ current.map Prod.fst := List.mem_map.mpr ⟨(g, r), hmem, rfl⟩
    simpa [List.contains] using this
  exact process_gates_schedules_uncond net g c gg r (current.map Prod.fst) hga
    hcs hcond hg current st res hmem hok

/-- The `A` gate of the join network: one unconditional edge to `C`, and a
handler producing `{"a": 1}`. -/
def joinGateA : Gate :=
  { succ := ["c"], handler := some fun _ => .cons "a" (.int 1) .nil }

/-- Gates `A`,`B`,`C` with unconditional edges `A→C` and `B→C` — the
join-correctness scenario of the spec. -/
def joinNetA : GateNetwork :=
  { nodes := [("a", joinGateA), ("b", { succ := ["c"] }), ("c", {})] }

/-- C1 (counterexample): in the network with unconditional parents
`a`,`b` of child `c`, running resolution from `a` alone (so `b` never
fires) completes after two generations with `c` activated — exactly once —
on the payload `{"a": 1}` holding only `a`'s key.  The claim says `c` is
never activated on the strength of `a`'s firing alone. -/
theorem join_counterexample :
    gate_resolve joinNetA 3 "a" none =
      (.done [("c", .cons "a" (.int 1) .nil)], 2) := by
  rfl

/-- Witness for the amended C1 theorem at the join network: processing the
generation in which `a` fired schedules `c`. -/
theorem relaxed_join_barrier_witness :
    (((⟨[("c", PyValueMap.cons "a" (PyValue.int 1) PyValueMap.nil)], [], []⟩ :
        StepState).next_gates.lookup "c")).isSome = true :=
  relaxed_join_barrier joinNetA "a" "c" joinGateA
    (PyValueMap.cons "a" (PyValue.int 1) PyValueMap.nil)
    [("a", PyValueMap.cons "a" (PyValue.int 1) PyValueMap.nil)] {}
    ⟨[("c", PyValueMap.cons "a" (PyValue.int 1) PyValueMap.nil)], [], []⟩
    rfl (by decide) rfl (by decide) rfl

/-- C2 (as claimed): conditional-routing exclusivity.  In a network where
`add_edge(A, B, key, value, evaluator, fallback=C)` recorded the condition
`(k, e, v)` on `(A, B)` and its logical complement on `(A, C)` (the
hypotheses below are exactly what `add_edge` establishes), processing the
generation in which `A` produced the activation result `r` schedules
exactly one of `B` and `C` for the next generation — `B` with payload `r`
when `e(v, lookup(k, r))` is true, `C` with payload `r` when it is false,
never both. -/
theorem conditional_routing_exclusive (net : GateNetwork) (A B C k : String)
    (gg : Gate) (e : PyValue → PyValue → Bool) (v w : PyValue)
    (r : PyValueMap) (res : StepState)
    (hga : net.nodes.lookup A = some gg)
    (hB : B ∈ gg.succ) (hC : C ∈ gg.succ) (hnd : gg.succ.Nodup)
    (hcondB : net.condLookup (A, B) = some (k, e, v))
    (hcondC : net.condLookup (A, C) = some (k, (fun a b => !(e a b)), v))
    (hlook : get_nested k (.map r) = .ok w)
    (hok : process_gates net [A] [(A, r)] {} = .ok res) :
    res.next_gates.lookup B = (if e v w then some r else none) ∧
      res.next_gates.lookup C = (if e v w then none else some r) := by
  simp only [process_gates] at hok
  simp only [hga] at hok
  have hie : ¬gg.succ.isEmpty = true := by
    cases hsucc : gg.succ with
    | nil =>
      rw [hsucc] at hB
      exact absurd hB (List.not_mem_nil B)
    | cons a b => simp
  rw [if_neg hie] at hok
  cases hpc : process_children net [A] A gg.succ r {} with
  | error err =>
    simp only [hpc, bind, Except.bind] at hok
    exact absurd hok (by simp)
  | ok pr =>
    obtain ⟨arm, stm⟩ := pr
    simp only [hpc, bind, Except.bind, process_gates, Except.ok.injEq] at hok
    subst hok
    have hgA : ([A] : List String).contains A = true := by
      simp [List.contains]
    have hBr := process_children_cond_routing net [A] A B k e v w hgA hcondB
      gg.succ r {} arm stm rfl hnd hB rfl hlook hpc
    have hCr := process_children_cond_routing net [A] A C k
      (fun a b => !(e a b)) v w hgA hcondC gg.succ r {} arm stm rfl hnd hC rfl
      hlook hpc
    refine ⟨hBr, ?_⟩
    rw [hCr]
    cases hev : e v w <;> simp [hev]

/-- The base network for the conditional-routing scenario: gates
`a`,`b`,`c`, no edges yet. -/
def cond_route_base : GateNetwork :=
  { nodes := [("a", { succ := [] }), ("b", {}), ("c", {})] }

/-- `add_edge("a", "b", key="x", value=5, evaluator="eq", fallback="c")`
applied to the base network. -/
def cond_route_net : GateNetwork :=
  match network_add_edge cond_route_base "a" "b" (some "x") (some (.int 5))
      py_eq (some "c") with
  | .ok n => n
  | .error _ => cond_route_base

/-- Witness for C2 at the spec's own scenario: payload `{"x": 5}` routes
only to `b` (with that payload); `c` gets nothing. -/
theorem conditional_routing_exclusive_witness :
    (⟨[("b", PyValueMap.cons "x" (PyValue.int 5) PyValueMap.nil)], [], []⟩ :
        StepState).next_gates.lookup "b" =
      (if py_eq (.int 5) (.int 5) then
        some (PyValueMap.cons "x" (PyValue.int 5) PyValueMap.nil) else none) ∧
      (⟨[("b", PyValueMap.cons "x" (PyValue.int 5) PyValueMap.nil)], [], []⟩ :
          StepState).next_gates.lookup "c" =
        (if py_eq (.int 5) (.int 5) then none
          else some (PyValueMap.cons "x" (PyValue.int 5) PyValueMap.nil)) :=
  conditional_routing_exclusive cond_route_net "a" "b" "c" "x" ⟨["c", "b"], none, none⟩
    py_eq (.int 5) (.int 5) (PyValueMap.cons "x" (PyValue.int 5) PyValueMap.nil)
    ⟨[("b", PyValueMap.cons "x" (PyValue.int 5) PyValueMap.nil)], [], []⟩
    rfl (by decide) (by decide) (by decide) rfl rfl rfl rfl

/-! ## `mindstone/control/graph.py` — path enumeration and cycle detection
(C7)

```python
@property
def is_acyclic(self) -> bool:
    for path in self.get_all_complete_paths():
        if path[0] == path[-1]:
            return False
    return True

def get_complete_paths(self, key, sort=False):
    paths = []
    self._get_paths_util(key, paths, [])
    return sorted(...) if sort else paths

def get_all_complete_paths(self):
    paths = []
    for key in self.keys():
        paths += self.get_complete_paths(key)
    return paths

def _get_paths_util(self, key, paths, prepended, start=None):
    prepended += [key]
    out_neighbors = self.out_neighbors(key)
    if not out_neighbors or key == start:
        return prepended
    start = key if start is None else start
    for child in out_neighbors:
        new_path = self._get_paths_util(child, paths, list(prepended), start)
        if new_path:
            paths.append(new_path)
```

The recursion is unbounded — a branch is only stopped at a sink or at the
*original* start key — and is embedded with a fuel argument consumed on
every call: the Python recursion terminates on an input iff some fuel
suffices here (`none` models `RecursionError`).  `out_neighbors` of a key
that is not a node raises `KeyError` in Python; the embedding yields `[]`
there, which agrees with the source on closed graphs (every edge target is
a node — `DirectedGraph.closed` below), and all C7 graphs are closed. -/

/-- A directed graph: node key → successor keys (`dict` of `set`s). -/
structure DirectedGraph where
  adj : List (String × List String)
deriving DecidableEq, Repr

/-- `DirectedGraph.out_neighbors(key)` (see the section comment about
missing keys). -/
def DirectedGraph.out_neighbors (g : DirectedGraph) (key : String) :
    List String :=
  (g.adj.lookup key).getD []

/-- Every edge target is a node of the graph. -/
def DirectedGraph.closed (g : DirectedGraph) : Bool :=
  g.adj.all fun kn => kn.2.all fun t => (g.adj.lookup t).isSome

mutual
/-- `DirectedGraph._get_paths_util(key, paths, prepended, start)` under
fuel: the accumulated `paths` list and the returned value (`some
prepended` at a sink or at the start key, `none` after the loop). -/
def get_paths_util (g : DirectedGraph) :
    Nat → String → List (List String) → List String → Option String →
    Option (List (List String) × Option (List String))
  | 0, _, _, _, _ => none
  | fuel + 1, key, paths, prepended, start =>
    let prepended2 := prepended ++ [key]
    let out := g.out_neighbors key
    if out.isEmpty || some key == start then some (paths, some prepended2)
    else
      let start2 := if start.isNone then some key else start
      match paths_children g fuel out paths prepended2 start2 with
      | none => none
      | some paths2 => some (paths2, none)

/-- The `for child in out_neighbors` loop of `_get_paths_util`, appending
each non-`None` returned path to `paths`. -/
def paths_children (g : DirectedGraph) :
    Nat → List String → List (List String) → List String → Option String →
    Option (List (List String))
  | _, [], paths, _, _ => some paths
  | 0, _ :: _, _, _, _ => none
  | fuel + 1, child :: rest, paths, prepended, start =>
    match get_paths_util g fuel child paths prepended start with
    | none => none
    | some (paths2, ret) =>
      let paths3 :=
        match ret with
        | some p => paths2 ++ [p]
        | none => paths2
      paths_children g fuel rest paths3 prepended start
end

/-- `DirectedGraph.get_complete_paths(key)` (without sorting): the
`paths` list the utility filled in. -/
def DirectedGraph.get_complete_paths (g : DirectedGraph) (fuel : Nat)
    (key : String) : Option (List (List String)) :=
  (get_paths_util g fuel key [] [] none).map Prod.fst

/-- `DirectedGraph.get_all_complete_paths()`: the per-key path lists
concatenated in key order; a failure (`RecursionError`) propagates. -/
def DirectedGraph.get_all_complete_paths (g : DirectedGraph) (fuel : Nat) :
    Option (List (List String)) :=
  go g (fuel) (g.adj.map Prod.fst)
where
  /-- The `for key in self.keys()` accumulation. -/
  go (g : DirectedGraph) (fuel : Nat) : List String → Option (List (List String))
    | [] => some []
    | k :: rest =>
      match g.get_complete_paths fuel k with
      | none => none
      | some ps =>
        match go g fuel rest with
        | none => none
        | some qs => some (ps ++ qs)

/-- `DirectedGraph.is_acyclic`: no enumerated path returns to its own
first key. -/
def DirectedGraph.is_acyclic (g : DirectedGraph) (fuel : Nat) : Option Bool :=
  (g.get_all_complete_paths fuel).map fun paths =>
    paths.all fun p => !(p.head? == p.getLast?)

/-- The enumeration terminates when some recursion budget suffices. -/
def path_enum_terminates (g : DirectedGraph) : Prop :=
  ∃ fuel, (g.get_all_complete_paths fuel).isSome = true

/-- Consecutive keys of the list are all edges of the graph. -/
def is_edge_walk (g : DirectedGraph) : List String → Bool
  | [] => true
  | [_] => true
  | a :: b :: rest =>
    (g.out_neighbors a).contains b && is_edge_walk g (b :: rest)

/-- A directed cycle: a closed edge walk traversing at least one edge. -/
def has_cycle (g : DirectedGraph) : Prop :=
  ∃ w : List String, 2 ≤ w.length ∧ is_edge_walk g w = true ∧
    w.head? = w.getLast?

/-- The graph `{a→b, b→c, c→b}`: its only cycle avoids `a`, so the
depth-first branch from `a` never returns to its start key and never
reaches a sink. -/
def pathsCycleNet : DirectedGraph :=
  ⟨[("a", ["b"]), ("b", ["c"]), ("c", ["b"])]⟩

/-- The two-node cycle `{a→b, b→a}`. -/
def twoCycleNet : DirectedGraph :=
  ⟨[("a", ["b"]), ("b", ["a"])]⟩

/-- The acyclic chain `{a→b, b→c, c→∅}`. -/
def chainNet : DirectedGraph :=
  ⟨[("a", ["b"]), ("b", ["c"]), ("c", [])]⟩

/-- From `b` or `c` with start key `a`, the depth-first recursion of
`_get_paths_util` runs forever: the branch circles `b → c → b → ...`,
never reaching a sink and never returning to the start key `a`. -/
theorem pathsCycle_bc_none :
    ∀ (fuel : Nat) (paths : List (List String)) (prepended : List String),
      get_paths_util pathsCycleNet fuel "b" paths prepended (some "a") = none ∧
      get_paths_util pathsCycleNet fuel "c" paths prepended (some "a") = none := by
  intro fuel
  induction fuel using Nat.strong_induction_on with
  | _ fuel ih =>
    intro paths prepended
    match fuel with
    | 0 => exact ⟨rfl, rfl⟩
    | 1 => exact ⟨rfl, rfl⟩
    | (f + 2) =>
      constructor
      · have hc := (ih f (by omega) paths (prepended ++ ["b"])).2
        simp only [pathsCycleNet] at hc
        simp [get_paths_util, paths_children, DirectedGraph.out_neighbors,
          pathsCycleNet, List.lookup, hc]
      · have hb := (ih f (by omega) paths (prepended ++ ["c"])).1
        simp only [pathsCycleNet] at hb
        simp [get_paths_util, paths_children, DirectedGraph.out_neighbors,
          pathsCycleNet, List.lookup, hb]

/-- The whole-graph enumeration of `pathsCycleNet` exhausts every recursion
budget: its first start key is `a`. -/
theorem pathsCycle_enum_none :
    ∀ fuel, pathsCycleNet.get_all_complete_paths fuel = none := by
  intro fuel
  have ha : get_paths_util pathsCycleNet fuel "a" [] [] none = none := by
    match fuel with
    | 0 => rfl
    | 1 => rfl
    | (f + 2) =>
      have hb := (pathsCycle_bc_none f [] ["a"]).1
      simp only [pathsCycleNet] at hb
      simp [get_paths_util, paths_children, DirectedGraph.out_neighbors,
        pathsCycleNet, List.lookup, hb]
  simp only [pathsCycleNet] at ha
  simp [DirectedGraph.get_all_complete_paths, DirectedGraph.get_all_complete_paths.go,
    DirectedGraph.get_complete_paths, pathsCycleNet, ha]

/-- C7 (counterexample): the full path enumeration does not terminate on
every finite directed graph.  On `{a→b, b→c, c→b}` the branch starting at
`a` enters the cycle `b→c→b`, which does not contain the branch's start
key, so no recursion depth suffices (in Python: `RecursionError`), and
`is_acyclic` never returns a verdict at all. -/
theorem cycle_detection_counterexample :
    path_enum_terminates pathsCycleNet = False := by
  apply eq_false
  rintro ⟨fuel, hf⟩
  rw [pathsCycle_enum_none fuel] at hf
  simp at hf

/-- Extending an edge walk ending at `a` by an out-neighbor `b` of `a`. -/
theorem is_edge_walk_snoc (g : DirectedGraph) (a b : String)
    (hb : (g.out_neighbors a).contains b = true) :
    ∀ xs, is_edge_walk g (xs ++ [a]) = true → is_edge_walk g (xs ++ [a, b]) = true
  | [], _ => by
    show is_edge_walk g [a, b] = true
    show ((g.out_neighbors a).contains b && is_edge_walk g [b]) = true
    simp only [hb, is_edge_walk, Bool.and_self]
  | [x], hw => by
    have hw' : ((g.out_neighbors x).contains a && is_edge_walk g [a]) = true := hw
    show ((g.out_neighbors x).contains a && is_edge_walk g [a, b]) = true
    have hab : is_edge_walk g [a, b] = true := by
      show ((g.out_neighbors a).contains b && is_edge_walk g [b]) = true
      simp only [hb, is_edge_walk, Bool.and_self]
    simp only [Bool.and_eq_true] at hw' ⊢
    exact ⟨hw'.1, hab⟩
  | x :: y :: xs, hw => by
    have hw' : ((g.out_neighbors x).contains y &&
        is_edge_walk g ((y :: xs) ++ [a])) = true := hw
    show ((g.out_neighbors x).contains y &&
      is_edge_walk g ((y :: xs) ++ [a, b])) = true
    simp only [Bool.and_eq_true] at hw' ⊢
    exact ⟨hw'.1, is_edge_walk_snoc g a b hb (y :: xs) hw'.2⟩

/-- Every path the enumeration accumulates is an edge walk of length at
least two, and a returned branch is exactly the walk built so far.  The two
statements follow the mutual recursion; the fuel decreases at every call,
so plain induction on the fuel carries both at once. -/
theorem paths_enum_walks (g : DirectedGraph) :
    ∀ fuel : Nat,
      (∀ (key : String) (paths : List (List String)) (prepended : List String)
        (start : Option String) (paths2 : List (List String))
        (ret : Option (List String)),
        get_paths_util g fuel key paths prepended start = some (paths2, ret) →
        (∀ p ∈ paths, is_edge_walk g p = true ∧ 2 ≤ p.length) →
        is_edge_walk g (prepended ++ [key]) = true →
        ((∀ p ∈ paths2, is_edge_walk g p = true ∧ 2 ≤ p.length) ∧
          ∀ p, ret = some p → p = prepended ++ [key])) ∧
      (∀ (lst : List String) (paths : List (List String))
        (prepended : List String) (start : Option String)
        (paths2 : List (List String)),
        paths_children g fuel lst paths prepended start = some paths2 →
        (∀ p ∈ paths, is_edge_walk g p = true ∧ 2 ≤ p.length) →
        1 ≤ prepended.length →
        (∀ child ∈ lst, is_edge_walk g (prepended ++ [child]) = true) →
        ∀ p ∈ paths2, is_edge_walk g p = true ∧ 2 ≤ p.length) := by
  intro fuel
  induction fuel with
  | zero =>
    constructor
    · intro key paths prepended start paths2 ret hok
      exact absurd hok (by simp [get_paths_util])
    · intro lst paths prepended start paths2 hok hpaths hlen hchild
      cases lst with
      | nil =>
        simp only [paths_children, Option.some.injEq] at hok
        subst hok
        exact hpaths
      | cons child rest =>
        exact absurd hok (by simp [paths_children])
  | succ f ih =>
    constructor
    · intro key paths prepended start paths2 ret hok hpaths hwalk
      simp only [get_paths_util] at hok
      split at hok
      · simp only [Option.some.injEq, Prod.mk.injEq] at hok
        refine ⟨?_, ?_⟩
        · rw [← hok.1]
          exact hpaths
        · intro p hp
          rw [← hok.2] at hp
          exact (Option.some.inj hp).symm
      · cases hpc : paths_children g f (g.out_neighbors key) paths
          (prepended ++ [key]) (if start.isNone then some key else start) with
        | none =>
          rw [hpc] at hok
          exact absurd hok (by simp)
        | some p2 =>
          rw [hpc] at hok
          simp only [Option.some.injEq, Prod.mk.injEq] at hok
          refine ⟨?_, ?_⟩
          · rw [← hok.1]
            refine ih.2 (g.out_neighbors key) paths (prepended ++ [key]) _
              p2 hpc hpaths (by simp) ?_
            intro child hchild
            have hcont : (g.out_neighbors key).contains child = true := by
              simpa [List.contains] using hchild
            have hsn := is_edge_walk_snoc g key child hcont prepended hwalk
            simpa [List.append_assoc] using hsn
          · intro p hp
            rw [← hok.2] at hp
            exact absurd hp (by simp)
    · intro lst paths prepended start paths2 hok hpaths hlen hchild
      cases lst with
      | nil =>
        simp only [paths_children, Option.some.injEq] at hok
        subst hok
        exact hpaths
      | cons child rest =>
        simp only [paths_children] at hok
        cases hu : get_paths_util g f child paths prepended start with
        | none =>
          rw [hu] at hok
          exact absurd hok (by simp)
        | some pr =>
          obtain ⟨p2, ret⟩ := pr
          rw [hu] at hok
          have hwalkc : is_edge_walk g (prepended ++ [child]) = true :=
            hchild child (List.mem_cons_self child rest)
          have hu2 := ih.1 child paths prepended start p2 ret hu hpaths hwalkc
          have hpaths3 : ∀ p ∈ (match ret with
              | some q => p2 ++ [q]
              | none => p2), is_edge_walk g p = true ∧ 2 ≤ p.length := by
            cases ret with
            | none => exact hu2.1
            | some q =>
              intro p hp
              simp only [List.mem_append] at hp
              rcases hp with hp | hp
              · exact hu2.1 p hp
              · have hpq : p = q := by simpa using hp
                subst hpq
                rw [hu2.2 p rfl]
                refine ⟨hwalkc, ?_⟩
                have hl2 : (prepended ++ [child]).length = prepended.length + 1 := by
                  simp
                rw [hl2]
                omega
          exact ih.2 rest _ prepended start paths2 hok hpaths3 hlen
            (fun c hc => hchild c (List.mem_cons_of_mem child hc))

/-- All paths `get_complete_paths` enumerates are edge walks of length at
least two. -/
theorem get_complete_paths_walks (g : DirectedGraph) (fuel : Nat)
    (key : String) (ps : List (List String))
    (h : g.get_complete_paths fuel key = some ps) :
    ∀ p ∈ ps, is_edge_walk g p = true ∧ 2 ≤ p.length := by
  unfold DirectedGraph.get_complete_paths at h
  cases hu : get_paths_util g fuel key [] [] none with
  | none =>
    rw [hu] at h
    exact absurd h (by simp)
  | some pr =>
    obtain ⟨p2, ret⟩ := pr
    rw [hu] at h
    simp only [Option.map_some', Option.some.injEq] at h
    subst h
    exact ((paths_enum_walks g fuel).1 key [] [] none p2 ret hu
      (by intro p hp; exact absurd hp (List.not_mem_nil p)) rfl).1

/-- All paths the whole-graph enumeration accumulates are edge walks of
length at least two. -/
theorem get_all_go_walks (g : DirectedGraph) (fuel : Nat) :
    ∀ (keys : List String) (ps : List (List String)),
      DirectedGraph.get_all_complete_paths.go g fuel keys = some ps →
      ∀ p ∈ ps, is_edge_walk g p = true ∧ 2 ≤ p.length
  | [], ps, h => by
    simp only [DirectedGraph.get_all_complete_paths.go, Option.some.injEq] at h
    subst h
    intro p hp
    exact absurd hp (List.not_mem_nil p)
  | k :: rest, ps, h => by
    simp only [DirectedGraph.get_all_complete_paths.go] at h
    cases hc : g.get_complete_paths fuel k with
    | none =>
      rw [hc] at h
      exact absurd h (by simp)
    | some psk =>
      rw [hc] at h
      cases hg : DirectedGraph.get_all_complete_paths.go g fuel rest with
      | none =>
        rw [hg] at h
        exact absurd h (by simp)
      | some qs =>
        rw [hg] at h
        simp only [Option.some.injEq] at h
        subst h
        intro p hp
        rcases List.mem_append.mp hp with hp | hp
        · exact get_complete_paths_walks g fuel k psk hc p hp
        · exact get_all_go_walks g fuel rest qs hg p hp

/-- Soundness of the cycle check: when the enumeration terminates and
`is_acyclic` reports `False`, some enumerated path is a closed edge walk
with at least one edge — a genuine directed cycle. -/
theorem is_acyclic_false_has_cycle (g : DirectedGraph) (fuel : Nat)
    (h : g.is_acyclic fuel = some false) : has_cycle g := by
  unfold DirectedGraph.is_acyclic at h
  cases hall : g.get_all_complete_paths fuel with
  | none =>
    rw [hall] at h
    exact absurd h (by simp)
  | some paths =>
    rw [hall] at h
    simp only [Option.map_some', Option.some.injEq] at h
    have hex : ∃ p ∈ paths, ¬(!(p.head? == p.getLast?)) = true := by
      rw [← List.all_eq_false]
      exact h
    obtain ⟨p, hp, hcl⟩ := hex
    have hcl2 : p.head? = p.getLast? := by
      simpa using hcl
    have hwalk := get_all_go_walks g fuel (g.adj.map Prod.fst) paths hall p hp
    exact ⟨p, hwalk.2, hwalk.1, hcl2⟩

/-- C7 (amended): the acyclicity check is sound but the enumeration it
relies on does not terminate in general.  Whenever `get_all_complete_paths`
terminates and `is_acyclic` reports `False`, the graph really contains a
directed cycle (any enumerated path with equal first and last key is a
closed edge walk); but on `{a→b, b→c, c→b}` the enumeration exhausts every
recursion budget, so neither the claimed termination nor the "reports a
cycle exactly when one exists" verdict holds there.  On the two-node cycle
the check terminates and correctly reports the cycle; on the acyclic chain
it terminates and reports acyclicity. -/
theorem cycle_detection_amended :
    (∀ (g : DirectedGraph) (fuel : Nat), g.closed = true →
        g.is_acyclic fuel = some false → has_cycle g) ∧
    (∀ fuel, pathsCycleNet.get_all_complete_paths fuel = none) ∧
    twoCycleNet.is_acyclic 5 = some false ∧
    chainNet.is_acyclic 5 = some true :=
  ⟨fun g fuel _ h => is_acyclic_false_has_cycle g fuel h,
   pathsCycle_enum_none, rfl, rfl⟩
